import Mathlib

set_option maxHeartbeats 1000000

/-!
Verification of the snapshot/restore engine of a chat-platform bot
(`src/index.js`): snapshot collector (`collectGuildBackup`), JSON file
store (`saveGuildBackup` / `loadGuildBackup`), restore orchestrator
(`restoreGuildFromBackup`), single-channel rebuild (`nukeChannel`) and
the translation retry loop (`translateWithRetry`).  The JavaScript is
shallowly embedded: every API call is recorded in a trace, and an
oracle decides the outcome of each call in issue order.
-/

/-! ### Decimal string codec

`r.permissions.bitfield.toString()` renders a permission mask as a
decimal string and `BigInt(s)` parses it back.  We model the pair by an
explicit base-10 printer and parser over `Nat` and prove the round
trip, so that "decimal-string encoded" is meaningful in theorems. -/

def digitChar (d : Nat) : Char :=
  match d with
  | 0 => '0' | 1 => '1' | 2 => '2' | 3 => '3' | 4 => '4'
  | 5 => '5' | 6 => '6' | 7 => '7' | 8 => '8' | _ => '9'

def charDigit (c : Char) : Nat :=
  match c with
  | '0' => 0 | '1' => 1 | '2' => 2 | '3' => 3 | '4' => 4
  | '5' => 5 | '6' => 6 | '7' => 7 | '8' => 8 | _ => 9

/-- Little-endian digit expansion with explicit fuel (`fuel ≥ n` suffices). -/
def decDigitsAux : Nat → Nat → List Nat
  | 0, _ => []
  | fuel + 1, n => if n = 0 then [] else (n % 10) :: decDigitsAux fuel (n / 10)

def decDigits (n : Nat) : List Nat := decDigitsAux n n

/-- Value of a little-endian digit list. -/
def decValue : List Nat → Nat
  | [] => 0
  | d :: ds => d + 10 * decValue ds

/-- Model of `x.toString()` on a non-negative integer / BigInt. -/
def decToString (n : Nat) : String :=
  if n = 0 then "0" else ⟨(decDigits n).reverse.map digitChar⟩

/-- Model of `BigInt(s)` on a decimal string. -/
def decFromString (s : String) : Nat :=
  decValue ((s.data.map charDigit).reverse)

/-! ### Data model

Live (source-side) structures as read from the platform cache, and the
snapshot ("backup") structures as written to disk, mirroring the object
shapes built in `collectGuildBackup`.  Channel kinds keep the numeric
codes of the platform enum. -/

def GuildTextT : Nat := 0
def GuildVoiceT : Nat := 2
def GuildCategoryT : Nat := 4
def GuildAnnouncementT : Nat := 5
def GuildStageVoiceT : Nat := 13
def GuildForumT : Nat := 15

structure LiveOverwrite where
  id : String
  type : Nat
  allowBits : Nat
  denyBits : Nat
deriving DecidableEq

structure LiveRole where
  id : String
  name : String
  color : Nat
  hoist : Bool
  position : Nat
  mentionable : Bool
  managed : Bool
  permissionsBits : Nat
deriving DecidableEq

structure LiveChannel where
  id : String
  name : String
  type : Nat
  parentId : Option String
  rawPosition : Nat
  rateLimitPerUser : Nat
  nsfw : Bool
  topic : Option String
  bitrate : Option Nat
  userLimit : Option Nat
  overwrites : List LiveOverwrite
deriving DecidableEq

structure Guild where
  id : String
  name : String
  iconURL : Option String
  roles : List LiveRole
  channels : List LiveChannel
deriving DecidableEq

structure BRole where
  id : String
  name : String
  color : Nat
  hoist : Bool
  position : Nat
  mentionable : Bool
  permissions : String
deriving DecidableEq

structure BOverwrite where
  id : String
  allow : String
  deny : String
  type : Nat
deriving DecidableEq

structure BChannel where
  id : String
  name : String
  type : Nat
  parentId : Option String
  position : Nat
  rateLimitPerUser : Nat
  nsfw : Bool
  topic : Option String
  bitrate : Option Nat
  userLimit : Option Nat
  overwrites : List BOverwrite
deriving DecidableEq

structure BMeta where
  guildId : String
  name : String
  iconURL : Option String
  savedAt : String
deriving DecidableEq

structure Backup where
  meta : BMeta
  roles : List BRole
  channels : List BChannel
deriving DecidableEq

/-! ### JavaScript truthiness normalizers

`x || null` maps the empty string (or 0) to `null`; modeled explicitly. -/

def strOrNull (t : Option String) : Option String :=
  match t with
  | some s => if s = "" then none else some s
  | none => none

def natOrNull (t : Option Nat) : Option Nat :=
  match t with
  | some n => if n = 0 then none else some n
  | none => none

/-! ### Snapshot collector (`collectGuildBackup`)

Sorting by position uses insertion sort, modeling the ascending
comparator `(a, b) => a.position - b.position`. -/

def roleLE (a b : LiveRole) : Prop := a.position ≤ b.position

instance : DecidableRel roleLE := fun a b => Nat.decLe a.position b.position

instance : IsTotal LiveRole roleLE := ⟨fun a b => Nat.le_total a.position b.position⟩

instance : IsTrans LiveRole roleLE := ⟨fun _ _ _ h1 h2 => Nat.le_trans h1 h2⟩

def chLE (a b : LiveChannel) : Prop := a.rawPosition ≤ b.rawPosition

instance : DecidableRel chLE := fun a b => Nat.decLe a.rawPosition b.rawPosition

instance : IsTotal LiveChannel chLE := ⟨fun a b => Nat.le_total a.rawPosition b.rawPosition⟩

instance : IsTrans LiveChannel chLE := ⟨fun _ _ _ h1 h2 => Nat.le_trans h1 h2⟩

def bchLE (a b : BChannel) : Prop := a.position ≤ b.position

instance : DecidableRel bchLE := fun a b => Nat.decLe a.position b.position

instance : IsTotal BChannel bchLE := ⟨fun a b => Nat.le_total a.position b.position⟩

instance : IsTrans BChannel bchLE := ⟨fun _ _ _ h1 h2 => Nat.le_trans h1 h2⟩

def roleToBackup (r : LiveRole) : BRole :=
  ⟨r.id, r.name, r.color, r.hoist, r.position, r.mentionable, decToString r.permissionsBits⟩

def owToBackup (ow : LiveOverwrite) : BOverwrite :=
  ⟨ow.id, decToString ow.allowBits, decToString ow.denyBits, 0⟩

def channelToBackup (ch : LiveChannel) : BChannel :=
  ⟨ch.id, ch.name, ch.type, strOrNull ch.parentId, ch.rawPosition, ch.rateLimitPerUser,
   ch.nsfw, strOrNull ch.topic, natOrNull ch.bitrate, natOrNull ch.userLimit,
   (ch.overwrites.filter (fun ow => ow.type == 0)).map owToBackup⟩

/-- Embedding of `collectGuildBackup(guild)`; `savedAt` is passed in
(the source takes `new Date().toISOString()`). -/
def collectGuildBackup (g : Guild) (savedAt : String) : Backup :=
  ⟨⟨g.id, g.name, strOrNull g.iconURL, savedAt⟩,
   (List.insertionSort roleLE (g.roles.filter (fun r => !r.managed))).map roleToBackup,
   (List.insertionSort chLE g.channels).map channelToBackup⟩

/-! ### JSON layer and snapshot store

`saveGuildBackup` writes `JSON.stringify(data, null, 2)` to
`BACKUP_DIR/guildId.json`; `loadGuildBackup` returns `null` when the
file is absent and `JSON.parse` of its content otherwise.  The store is
modeled as an association list from guild id to the parse tree of the
file content; `JSON.parse ∘ JSON.stringify` is the identity on the
tree, so `encodeBackup` is the tree `stringify` produces and
`decodeBackup` reads that tree back as a snapshot object. -/

inductive Json where
  | null : Json
  | bool : Bool → Json
  | num : Nat → Json
  | str : String → Json
  | arr : List Json → Json
  | obj : List (String × Json) → Json

def aget {β : Type} : List (String × β) → String → Option β
  | [], _ => none
  | (k, v) :: rest, key => if k = key then some v else aget rest key

def aset {β : Type} : List (String × β) → String → β → List (String × β)
  | [], k, v => [(k, v)]
  | (k2, v2) :: rest, k, v =>
      if k2 = k then (k, v) :: rest else (k2, v2) :: aset rest k v

def Json.asObj : Json → Option (List (String × Json))
  | .obj fs => some fs
  | _ => none

def Json.asArr : Json → Option (List Json)
  | .arr xs => some xs
  | _ => none

def Json.asStr : Json → Option String
  | .str s => some s
  | _ => none

def Json.asNat : Json → Option Nat
  | .num n => some n
  | _ => none

def Json.asBool : Json → Option Bool
  | .bool b => some b
  | _ => none

def Json.asOptStr : Json → Option (Option String)
  | .null => some none
  | .str s => some (some s)
  | _ => none

def Json.asOptNat : Json → Option (Option Nat)
  | .null => some none
  | .num n => some (some n)
  | _ => none

def optStrJson : Option String → Json
  | none => .null
  | some s => .str s

def optNatJson : Option Nat → Json
  | none => .null
  | some n => .num n

def decList {α : Type} (dec : Json → Option α) : List Json → Option (List α)
  | [] => some []
  | j :: rest =>
    match dec j with
    | none => none
    | some a =>
      match decList dec rest with
      | none => none
      | some tl => some (a :: tl)

def encodeBRole (r : BRole) : Json :=
  .obj [("id", .str r.id), ("name", .str r.name), ("color", .num r.color),
        ("hoist", .bool r.hoist), ("position", .num r.position),
        ("mentionable", .bool r.mentionable), ("permissions", .str r.permissions)]

def obind {α β : Type} (x : Option α) (f : α → Option β) : Option β :=
  match x with
  | none => none
  | some a => f a

def decodeBRole (j : Json) : Option BRole :=
  obind j.asObj fun fs =>
  obind (obind (aget fs "id") Json.asStr) fun id =>
  obind (obind (aget fs "name") Json.asStr) fun name =>
  obind (obind (aget fs "color") Json.asNat) fun color =>
  obind (obind (aget fs "hoist") Json.asBool) fun hoist =>
  obind (obind (aget fs "position") Json.asNat) fun position =>
  obind (obind (aget fs "mentionable") Json.asBool) fun mentionable =>
  obind (obind (aget fs "permissions") Json.asStr) fun permissions =>
  some ⟨id, name, color, hoist, position, mentionable, permissions⟩

def encodeBOverwrite (ow : BOverwrite) : Json :=
  .obj [("id", .str ow.id), ("allow", .str ow.allow), ("deny", .str ow.deny),
        ("type", .num ow.type)]

def decodeBOverwrite (j : Json) : Option BOverwrite :=
  obind j.asObj fun fs =>
  obind (obind (aget fs "id") Json.asStr) fun id =>
  obind (obind (aget fs "allow") Json.asStr) fun allow =>
  obind (obind (aget fs "deny") Json.asStr) fun deny =>
  obind (obind (aget fs "type") Json.asNat) fun type =>
  some ⟨id, allow, deny, type⟩

def encodeBChannel (ch : BChannel) : Json :=
  .obj [("id", .str ch.id), ("name", .str ch.name), ("type", .num ch.type),
        ("parentId", optStrJson ch.parentId), ("position", .num ch.position),
        ("rateLimitPerUser", .num ch.rateLimitPerUser), ("nsfw", .bool ch.nsfw),
        ("topic", optStrJson ch.topic), ("bitrate", optNatJson ch.bitrate),
        ("userLimit", optNatJson ch.userLimit),
        ("overwrites", .arr (ch.overwrites.map encodeBOverwrite))]

def decodeBChannel (j : Json) : Option BChannel :=
  obind j.asObj fun fs =>
  obind (obind (aget fs "id") Json.asStr) fun id =>
  obind (obind (aget fs "name") Json.asStr) fun name =>
  obind (obind (aget fs "type") Json.asNat) fun type =>
  obind (obind (aget fs "parentId") Json.asOptStr) fun parentId =>
  obind (obind (aget fs "position") Json.asNat) fun position =>
  obind (obind (aget fs "rateLimitPerUser") Json.asNat) fun rateLimitPerUser =>
  obind (obind (aget fs "nsfw") Json.asBool) fun nsfw =>
  obind (obind (aget fs "topic") Json.asOptStr) fun topic =>
  obind (obind (aget fs "bitrate") Json.asOptNat) fun bitrate =>
  obind (obind (aget fs "userLimit") Json.asOptNat) fun userLimit =>
  obind (obind (aget fs "overwrites") Json.asArr) fun ows =>
  obind (decList decodeBOverwrite ows) fun overwrites =>
  some ⟨id, name, type, parentId, position, rateLimitPerUser, nsfw, topic,
        bitrate, userLimit, overwrites⟩

def encodeBMeta (m : BMeta) : Json :=
  .obj [("guildId", .str m.guildId), ("name", .str m.name),
        ("iconURL", optStrJson m.iconURL), ("savedAt", .str m.savedAt)]

def decodeBMeta (j : Json) : Option BMeta :=
  obind j.asObj fun fs =>
  obind (obind (aget fs "guildId") Json.asStr) fun guildId =>
  obind (obind (aget fs "name") Json.asStr) fun name =>
  obind (obind (aget fs "iconURL") Json.asOptStr) fun iconURL =>
  obind (obind (aget fs "savedAt") Json.asStr) fun savedAt =>
  some ⟨guildId, name, iconURL, savedAt⟩

def encodeBackup (b : Backup) : Json :=
  .obj [("meta", encodeBMeta b.meta), ("roles", .arr (b.roles.map encodeBRole)),
        ("channels", .arr (b.channels.map encodeBChannel))]

def decodeBackup (j : Json) : Option Backup :=
  obind j.asObj fun fs =>
  obind (obind (aget fs "meta") decodeBMeta) fun meta =>
  obind (obind (aget fs "roles") Json.asArr) fun rolesArr =>
  obind (decList decodeBRole rolesArr) fun roles =>
  obind (obind (aget fs "channels") Json.asArr) fun channelsArr =>
  obind (decList decodeBChannel channelsArr) fun channels =>
  some ⟨meta, roles, channels⟩

/-- The backup directory: one parsed JSON document per guild id. -/
def BackupStore : Type := List (String × Json)

/-- Embedding of `saveGuildBackup(guildId, data)`: serialize and
overwrite the file for that guild id. -/
def saveGuildBackup (st : BackupStore) (guildId : String) (data : Backup) : BackupStore :=
  aset st guildId (encodeBackup data)

/-- Embedding of `loadGuildBackup(guildId)`: `null` when no file
exists, the parsed snapshot otherwise. -/
def loadGuildBackup (st : BackupStore) (guildId : String) : Option Backup :=
  match aget st guildId with
  | none => none
  | some j => decodeBackup j

/-! ### Restore orchestrator (`restoreGuildFromBackup`)

Every platform call is recorded in a trace; an `Oracle` gives the
outcome of the i-th issued call (`ok` carries the freshly minted id of
a created entity; for deletions and batched overwrite calls the id is
ignored).  The source runs strictly sequentially, so a call index fully
determines the call. -/

inductive CallRes where
  | ok (newId : String)
  | err (msg : String)
deriving DecidableEq

def Oracle : Type := Nat → CallRes

structure AppliedOW where
  id : String
  allow : Nat
  deny : Nat
  type : Nat
deriving DecidableEq

structure ChannelPayload where
  name : String
  type : Nat
  parent : Option String
  position : Nat
  topic : Option String
  nsfw : Option Bool
  rateLimitPerUser : Option Nat
  bitrate : Option Nat
  userLimit : Option Nat
deriving DecidableEq

inductive ApiCall where
  | deleteChannel (id : String)
  | deleteRole (id : String)
  | createRole (name : String) (color : Nat) (hoist : Bool) (mentionable : Bool)
      (permissions : Nat)
  | createCategory (name : String) (position : Nat)
  | createChannel (p : ChannelPayload)
  | setOverwrites (channelId : String) (ows : List AppliedOW)
  | setGuildName (name : String)
  | setGuildIcon (url : String)
  | sendMessage (channelId : String) (text : String)
  | followUp (text : String)
deriving DecidableEq

inductive LogEntry where
  | roleCreateFailed (name : String) (msg : String)
  | categoryCreateFailed (name : String) (msg : String)
  | channelCreateFailed (name : String) (msg : String)
  | guildMetaFailed (msg : String)
deriving DecidableEq

structure RestoreSt where
  k : Nat
  trace : List ApiCall
  log : List LogEntry
  roleIdMap : List (String × String)
  channelIdMap : List (String × String)
  cache : List (String × Nat)
deriving DecidableEq

/-- A restore state with nothing in the channel cache, used to
exercise the per-entity step functions in isolation. -/
def emptyRestoreSt : RestoreSt := ⟨0, [], [], [], [], []⟩

/-- The state at the start of a restore: `guild.channels.cache` holds
the live channels (id and kind). -/
def initialRestoreSt (g : Guild) : RestoreSt :=
  ⟨0, [], [], [], [], g.channels.map (fun ch => (ch.id, ch.type))⟩

def callApi (orc : Oracle) (s : RestoreSt) (c : ApiCall) : CallRes × RestoreSt :=
  (orc s.k, { s with k := s.k + 1, trace := s.trace ++ [c] })

/-- Translation of an overwrite for re-application:
`id: roleIdMap.get(ow.id) || guild.id, allow: BigInt(ow.allow), ...`. -/
def translateOW (guildId : String) (roleIdMap : List (String × String))
    (ow : BOverwrite) : AppliedOW :=
  ⟨(aget roleIdMap ow.id).getD guildId, decFromString ow.allow, decFromString ow.deny, ow.type⟩

/-- Loop body of step 3 (role recreation); a failure is caught and
logged with the role name (`console.error('Role create failed:', r.name, ...)`). -/
def roleStep (orc : Oracle) (s : RestoreSt) (r : BRole) : RestoreSt :=
  let pair := callApi orc s
    (.createRole r.name r.color r.hoist r.mentionable (decFromString r.permissions))
  match pair.1 with
  | .ok newId => { pair.2 with roleIdMap := (r.id, newId) :: pair.2.roleIdMap }
  | .err m => { pair.2 with log := pair.2.log ++ [.roleCreateFailed r.name m] }

/-- Loop body of step 4 (category creation): create, record the id
mapping, then apply the translated overwrites as one batched call; any
failure inside the `try` is caught and logged with the category name. -/
def categoryStep (gid : String) (orc : Oracle) (s : RestoreSt) (cat : BChannel) : RestoreSt :=
  let pair := callApi orc s (.createCategory cat.name cat.position)
  match pair.1 with
  | .err m => { pair.2 with log := pair.2.log ++ [.categoryCreateFailed cat.name m] }
  | .ok newId =>
    let s2 := { pair.2 with channelIdMap := (cat.id, newId) :: pair.2.channelIdMap,
                            cache := pair.2.cache ++ [(newId, GuildCategoryT)] }
    if cat.overwrites.isEmpty then s2
    else
      let pair2 := callApi orc s2
        (.setOverwrites newId (cat.overwrites.map (translateOW gid s2.roleIdMap)))
      match pair2.1 with
      | .ok _ => pair2.2
      | .err m => { pair2.2 with log := pair2.2.log ++ [.categoryCreateFailed cat.name m] }

def isTextLikeT (t : Nat) : Bool := t == GuildTextT || t == GuildAnnouncementT || t == GuildForumT

def isVoiceLikeT (t : Nat) : Bool := t == GuildVoiceT || t == GuildStageVoiceT

/-- Payload built for a non-category channel: text-like kinds carry
topic/nsfw/slow-mode, voice-like kinds carry bitrate/user-limit. -/
def buildChannelPayload (ch : BChannel) (parent : Option String) : ChannelPayload :=
  let p0 : ChannelPayload := ⟨ch.name, ch.type, parent, ch.position, none, none, none, none, none⟩
  let p1 := if isTextLikeT ch.type then
      { p0 with topic := strOrNull ch.topic, nsfw := some ch.nsfw,
                rateLimitPerUser := some ch.rateLimitPerUser }
    else p0
  if isVoiceLikeT ch.type then
    { p1 with bitrate := natOrNull ch.bitrate, userLimit := natOrNull ch.userLimit }
  else p1

/-- Parent resolution
`ch.parentId ? channelIdMap.get(ch.parentId) || null : null`. -/
def resolveParent (channelIdMap : List (String × String)) (parentId : Option String) :
    Option String :=
  match parentId with
  | some p => if p = "" then none else aget channelIdMap p
  | none => none

/-- Loop body of step 5 (non-category channel creation). -/
def channelStep (gid : String) (orc : Oracle) (s : RestoreSt) (ch : BChannel) : RestoreSt :=
  let payload := buildChannelPayload ch (resolveParent s.channelIdMap ch.parentId)
  let pair := callApi orc s (.createChannel payload)
  match pair.1 with
  | .err m => { pair.2 with log := pair.2.log ++ [.channelCreateFailed ch.name m] }
  | .ok newId =>
    let s2 := { pair.2 with channelIdMap := (ch.id, newId) :: pair.2.channelIdMap,
                            cache := pair.2.cache ++ [(newId, ch.type)] }
    if ch.overwrites.isEmpty then s2
    else
      let pair2 := callApi orc s2
        (.setOverwrites newId (ch.overwrites.map (translateOW gid s2.roleIdMap)))
      match pair2.1 with
      | .ok _ => pair2.2
      | .err m => { pair2.2 with log := pair2.2.log ++ [.channelCreateFailed ch.name m] }

/-- Loop body of step 1: delete one live channel; on success the
channel leaves `guild.channels.cache`, on failure (swallowed by the
empty `catch {}`) it stays live and cached. -/
def teardownChannelStep (orc : Oracle) (s : RestoreSt) (ch : LiveChannel) : RestoreSt :=
  let pair := callApi orc s (.deleteChannel ch.id)
  match pair.1 with
  | .ok _ => { pair.2 with cache := pair.2.cache.filter (fun p => p.1 != ch.id) }
  | .err _ => pair.2

/-- Step 1: delete every live channel; failures silently swallowed
(`catch {}`). -/
def teardownChannels (g : Guild) (orc : Oracle) (s : RestoreSt) : RestoreSt :=
  g.channels.foldl (teardownChannelStep orc) s

/-- Step 2: delete every non-managed, non-default role ascending by
position; failures silently swallowed. -/
def teardownRoles (g : Guild) (orc : Oracle) (s : RestoreSt) : RestoreSt :=
  (List.insertionSort roleLE
      (g.roles.filter (fun r => !r.managed && r.id != g.id))).foldl
    (fun s r => (callApi orc s (.deleteRole r.id)).2) s

/-- Step 3: recreate roles, skipping the one that stands for the
default role (`r.id === guild.id`). -/
def createRolesPhase (g : Guild) (b : Backup) (orc : Oracle) (s : RestoreSt) : RestoreSt :=
  b.roles.foldl (fun s r => if r.id == g.id then s else roleStep orc s r) s

def sortedCats (b : Backup) : List BChannel :=
  List.insertionSort bchLE (b.channels.filter (fun c => c.type == GuildCategoryT))

def sortedOthers (b : Backup) : List BChannel :=
  List.insertionSort bchLE (b.channels.filter (fun c => c.type != GuildCategoryT))

/-- Step 4: create categories ascending by snapshot position. -/
def createCategoriesPhase (g : Guild) (b : Backup) (orc : Oracle) (s : RestoreSt) : RestoreSt :=
  (sortedCats b).foldl (categoryStep g.id orc) s

/-- Step 5: create the remaining channels ascending by snapshot position. -/
def createOthersPhase (g : Guild) (b : Backup) (orc : Oracle) (s : RestoreSt) : RestoreSt :=
  (sortedOthers b).foldl (channelStep g.id orc) s

/-- Second half of step 6: `if (backup.meta?.iconURL) await guild.setIcon(...)`. -/
def metaIcon (b : Backup) (orc : Oracle) (s : RestoreSt) : RestoreSt :=
  match b.meta.iconURL with
  | none => s
  | some u =>
    if u = "" then s
    else
      let pair := callApi orc s (.setGuildIcon u)
      match pair.1 with
      | .err m => { pair.2 with log := pair.2.log ++ [.guildMetaFailed m] }
      | .ok _ => pair.2

/-- Step 6: rename the guild when the snapshot name differs, then set
the icon; both inside one `try`, so a rename failure also skips the
icon call. -/
def metaPhase (g : Guild) (b : Backup) (orc : Oracle) (s : RestoreSt) : RestoreSt :=
  if b.meta.name != "" && g.name != b.meta.name then
    let pair := callApi orc s (.setGuildName b.meta.name)
    match pair.1 with
    | .err m => { pair.2 with log := pair.2.log ++ [.guildMetaFailed m] }
    | .ok _ => metaIcon b orc pair.2
  else metaIcon b orc s

def isTextBasedT (t : Nat) : Bool :=
  t == GuildTextT || t == GuildVoiceT || t == GuildAnnouncementT || t == GuildStageVoiceT

/-- Step 7: post a completion notice in one text-capable channel of
`guild.channels.cache` — which holds both the channels just created
and any live channel whose teardown deletion failed.  The source picks
one at random; the model picks the first text-capable entry, which
coincides with the source whenever at most one candidate exists.
Failures are swallowed. -/
def notifyPhase (orc : Oracle) (s : RestoreSt) : RestoreSt :=
  match s.cache.find? (fun p => isTextBasedT p.2) with
  | none => s
  | some p => (callApi orc s (.sendMessage p.1 "✅ バックアップを復元完了しました")).2

/-- Embedding of `restoreGuildFromBackup(guild, backup, interaction)`. -/
def restoreGuildFromBackup (g : Guild) (b : Backup) (orc : Oracle) : RestoreSt :=
  let s7 := notifyPhase orc
    (metaPhase g b orc
      (createOthersPhase g b orc
        (createCategoriesPhase g b orc
          (createRolesPhase g b orc
            (teardownRoles g orc
              (teardownChannels g orc (initialRestoreSt g)))))))
  { s7 with trace := s7.trace ++ [.followUp "✅ 完全復元が完了しました"] }

inductive RestoreCmdResult where
  | aborted (reply : String)
  | completed (final : RestoreSt)

def RestoreCmdResult.isAborted : RestoreCmdResult → Bool
  | .aborted _ => true
  | .completed _ => false

/-- The `/restore` handler: load the snapshot; when none is on file,
reply and abort before any teardown; otherwise run the restore. -/
def handleRestoreCommand (st : BackupStore) (g : Guild) (orc : Oracle) : RestoreCmdResult :=
  match loadGuildBackup st g.id with
  | none => .aborted "⚠️ バックアップが見つかりません"
  | some b => .completed (restoreGuildFromBackup g b orc)

/-! ### Translation retry loop (`translateWithRetry`)

`for (let i = 0; i < retries; i++) { try { return await translate(...) }
catch (e) { if rate-limited await delay(1500 * (i + 1)); else throw e } }
throw new Error(...)`.  The model records attempts made and the delays
slept, in order. -/

inductive TransErr where
  | tooManyRequests
  | other (name : String)
deriving DecidableEq

inductive TransAttempt where
  | ok (text : String)
  | fail (e : TransErr)
deriving DecidableEq

def TransOracle : Type := Nat → TransAttempt

inductive TransResult where
  | translated (text : String)
  | threw (name : String)
  | exhausted
deriving DecidableEq

structure TransRun where
  result : TransResult
  attempts : Nat
  delays : List Nat
deriving DecidableEq

def translateGo (orc : TransOracle) : Nat → Nat → List Nat → TransRun
  | 0, i, delays => ⟨.exhausted, i, delays⟩
  | fuel + 1, i, delays =>
    match orc i with
    | .ok t => ⟨.translated t, i + 1, delays⟩
    | .fail .tooManyRequests => translateGo orc fuel (i + 1) (delays ++ [1500 * (i + 1)])
    | .fail (.other n) => ⟨.threw n, i + 1, delays⟩

/-- Embedding of `translateWithRetry(text, options, retries = 3)`; the
`i`-th attempt outcome comes from the oracle. -/
def translateWithRetry (orc : TransOracle) (retries : Nat) : TransRun :=
  translateGo orc retries 0 []

/-! ### Single-channel rebuild (`nukeChannel`)

Collect and persist a full snapshot, capture the target channel's
overwrites (all of them: unlike the collector, the source has no
`ow.type === 0` filter here), create the replacement, re-apply the
overwrites (not guarded by `try`), then best-effort delete the
original and post confirmations. -/

structure NukeSt where
  k : Nat
  trace : List ApiCall
deriving DecidableEq

inductive NukeResult where
  | done (newChId : String) (st : NukeSt) (store : BackupStore)
  | threw (msg : String) (st : NukeSt) (store : BackupStore)

def NukeResult.trace : NukeResult → List ApiCall
  | .done _ st _ => st.trace
  | .threw _ st _ => st.trace

def NukeResult.isThrew : NukeResult → Bool
  | .done _ _ _ => false
  | .threw _ _ _ => true

def nukeCall (orc : Oracle) (s : NukeSt) (c : ApiCall) : CallRes × NukeSt :=
  (orc s.k, ⟨s.k + 1, s.trace ++ [c]⟩)

/-- The replacement channel's payload: name/type/parent/position/
rate-limit/nsfw/topic/bitrate/userLimit of the original. -/
def nukePayload (ch : LiveChannel) : ChannelPayload :=
  ⟨ch.name, ch.type, ch.parentId, ch.rawPosition, strOrNull ch.topic, some ch.nsfw,
   some ch.rateLimitPerUser, natOrNull ch.bitrate, natOrNull ch.userLimit⟩

/-- Overwrites captured from the live channel: every overwrite, with
bit fields rendered as decimal strings; `type` copied as-is. -/
def nukeCapturedOWs (ch : LiveChannel) : List BOverwrite :=
  ch.overwrites.map (fun ow => ⟨ow.id, decToString ow.allowBits, decToString ow.denyBits, ow.type⟩)

/-- The batched overwrite list passed to `permissionOverwrites.set`:
same principal ids, `BigInt` of the captured decimal strings. -/
def nukeApplied (ch : LiveChannel) : List AppliedOW :=
  (nukeCapturedOWs ch).map (fun ow => ⟨ow.id, decFromString ow.allow, decFromString ow.deny, ow.type⟩)

/-- Embedding of `nukeChannel(channel, interaction)`. -/
def nukeChannel (g : Guild) (ch : LiveChannel) (savedAt : String) (st0 : BackupStore)
    (orc : Oracle) : NukeResult :=
  let store := saveGuildBackup st0 g.id (collectGuildBackup g savedAt)
  let ows := nukeCapturedOWs ch
  let pair := nukeCall orc ⟨0, []⟩ (.createChannel (nukePayload ch))
  match pair.1 with
  | .err m => .threw m pair.2 store
  | .ok newId =>
    let next : Option String × NukeSt :=
      if ows.isEmpty then (none, pair.2)
      else
        let pair2 := nukeCall orc pair.2 (.setOverwrites newId (nukeApplied ch))
        match pair2.1 with
        | .ok _ => (none, pair2.2)
        | .err m => (some m, pair2.2)
    match next with
    | (some m, s2) => .threw m s2 store
    | (none, s2) =>
      let s3 := (nukeCall orc s2 (.deleteChannel ch.id)).2
      let s4 : NukeSt := ⟨s3.k, s3.trace ++ [.followUp "💥 チャンネルをNukeしました"]⟩
      let s5 := (nukeCall orc s4 (.sendMessage newId "✅ チャンネルをNukeしました")).2
      .done newId s5 store

structure NukeCmdOutcome where
  result : NukeResult
  handlerLog : List String
  errorReply : Option String

/-- The `/nuke` handler: an exception escaping `nukeChannel` reaches
the interaction handler's catch, which logs it and replies with a
generic error. -/
def handleNukeCommand (g : Guild) (ch : LiveChannel) (savedAt : String) (st0 : BackupStore)
    (orc : Oracle) : NukeCmdOutcome :=
  match nukeChannel g ch savedAt st0 orc with
  | .threw m st store => ⟨.threw m st store, ["Interaction error: " ++ m], some "❌ エラーが発生しました"⟩
  | r => ⟨r, [], none⟩

/-! ### Trace machinery

Shape lemmas for the loop bodies and generic fold lemmas, used to
reason about the full restore trace. -/

def isDeleteChannelB : ApiCall → Bool
  | .deleteChannel _ => true
  | _ => false

def isDeleteRoleB : ApiCall → Bool
  | .deleteRole _ => true
  | _ => false

def isCreateRoleB : ApiCall → Bool
  | .createRole _ _ _ _ _ => true
  | _ => false

def isCreateCategoryB : ApiCall → Bool
  | .createCategory _ _ => true
  | _ => false

def isCreateChannelB : ApiCall → Bool
  | .createChannel _ => true
  | _ => false

def isSetOverwritesB : ApiCall → Bool
  | .setOverwrites _ _ => true
  | _ => false

def isMetaB : ApiCall → Bool
  | .setGuildName _ => true
  | .setGuildIcon _ => true
  | _ => false

def isSendB : ApiCall → Bool
  | .sendMessage _ _ => true
  | _ => false

def isFollowUpB : ApiCall → Bool
  | .followUp _ => true
  | _ => false

def catPosOf : ApiCall → Option Nat
  | .createCategory _ p => some p
  | _ => none

def chPosOf : ApiCall → Option Nat
  | .createChannel p => some p.position
  | _ => none

def kindTag : ApiCall → Nat
  | .deleteChannel _ => 0
  | .deleteRole _ => 1
  | .createRole _ _ _ _ _ => 2
  | .createCategory _ _ => 3
  | .createChannel _ => 4
  | .setOverwrites _ _ => 5
  | .setGuildName _ => 6
  | .setGuildIcon _ => 7
  | .sendMessage _ _ => 8
  | .followUp _ => 9

/-! ### Claims -/

def c6ch : BChannel :=
  ⟨"c9", "orphan", 0, some "cat-gone", 3, 0, false, none, none, none, []⟩

def c7ch : BChannel :=
  ⟨"c7", "general", 0, none, 0, 0, false, none, none, none, [⟨"role-gone", "1024", "0", 0⟩]⟩

def g10 : Guild := ⟨"g10", "srv", none, [], []⟩

def ch10 : LiveChannel :=
  ⟨"c10", "general", 0, none, 0, 0, false, none, none, none, []⟩

def g3 : Guild := ⟨"g3", "srv", none, [], []⟩

def ch3 : LiveChannel :=
  ⟨"c3", "general", 0, none, 0, 0, false, none, none, none, [⟨"m1", 1, 5, 2⟩]⟩

def g3w : Guild := ⟨"g3w", "srv", none, [], []⟩

def ch3w : LiveChannel :=
  ⟨"c3w", "general", 0, none, 2, 0, false, none, none, none,
   [⟨"r1", 0, 1024, 0⟩, ⟨"m1", 1, 5, 2⟩]⟩

def g4 : Guild := ⟨"g4", "srv", none, [], []⟩

def ch4 : LiveChannel :=
  ⟨"c4", "general", 0, none, 0, 0, false, none, none, none, [⟨"r1", 0, 1024, 0⟩]⟩

def orc4 : Oracle := fun k => if k = 0 then .ok "n1" else .err "boom"

def g2w : Guild := ⟨"g2w", "srv", none, [], []⟩

def b2w : Backup := ⟨⟨"g2w", "srv", none, "t"⟩, [], []⟩

def r2w : BRole := ⟨"r1", "Mod", 0, false, 1, false, "8"⟩

def cat2w : BChannel :=
  ⟨"catA", "catname", 4, none, 0, 0, false, none, none, none, [⟨"r1", "1", "0", 0⟩]⟩

def ch2w : BChannel :=
  ⟨"chA", "chname", 0, none, 1, 0, false, none, none, none, [⟨"r1", "1024", "0", 0⟩]⟩

def orcE : Oracle := fun _ => .err "boom"

def orc01 : Oracle := fun k => if k = 0 then .ok "n1" else .err "boom"

def g2c : Guild :=
  ⟨"g2c", "srv", none, [], [⟨"c1", "general", 0, none, 0, 0, false, none, none, none, []⟩]⟩

def b2c : Backup := ⟨⟨"g2c", "srv", none, "t"⟩, [], []⟩

theorem charDigit_digitChar (d : Nat) (h : d < 10) : charDigit (digitChar d) = d := by
  interval_cases d <;> rfl

theorem decDigitsAux_lt_ten : ∀ fuel n d, d ∈ decDigitsAux fuel n → d < 10 := by
  intro fuel
  induction fuel with
  | zero => intro n d h; simp [decDigitsAux] at h
  | succ fuel ih =>
    intro n d h
    by_cases hn : n = 0
    · simp [decDigitsAux, hn] at h
    · simp [decDigitsAux, hn] at h
      rcases h with h | h
      · omega
      · exact ih _ _ h

theorem decValue_decDigitsAux : ∀ fuel n, n ≤ fuel → decValue (decDigitsAux fuel n) = n := by
  intro fuel
  induction fuel with
  | zero => intro n h; interval_cases n; rfl
  | succ fuel ih =>
    intro n h
    by_cases hn : n = 0
    · simp [decDigitsAux, hn, decValue]
    · have hdiv : n / 10 ≤ fuel := by
        have : n / 10 < n := Nat.div_lt_self (Nat.pos_of_ne_zero hn) (by omega)
        omega
      simp only [decDigitsAux, hn, if_false, decValue, ih _ hdiv]
      omega

theorem decValue_decDigits (n : Nat) : decValue (decDigits n) = n :=
  decValue_decDigitsAux n n (Nat.le_refl n)

theorem decFromString_decToString (n : Nat) : decFromString (decToString n) = n := by
  by_cases hn : n = 0
  · subst hn; rfl
  · have hdata : (decToString n).data = (decDigits n).reverse.map digitChar := by
      simp [decToString, hn]
    have hdig : ∀ d ∈ decDigits n, d < 10 := fun d hd => decDigitsAux_lt_ten n n d hd
    calc decFromString (decToString n)
        = decValue ((((decDigits n).reverse.map digitChar).map charDigit).reverse) := by
          simp [decFromString, hdata]
      _ = decValue (((decDigits n).reverse.map (fun d => charDigit (digitChar d))).reverse) := by
          rw [List.map_map]; rfl
      _ = decValue (((decDigits n).reverse.map id).reverse) := by
          congr 1
          apply congrArg
          apply List.map_congr_left
          intro d hd
          exact charDigit_digitChar d (hdig d (List.mem_reverse.mp hd))
      _ = n := by simp [decValue_decDigits]

theorem strOrNull_eq_of_ne {t : Option String} (h : t ≠ some "") : strOrNull t = t := by
  match t with
  | none => rfl
  | some s =>
    have : s ≠ "" := fun hs => h (by rw [hs])
    simp [strOrNull, this]

theorem natOrNull_eq_of_ne {t : Option Nat} (h : t ≠ some 0) : natOrNull t = t := by
  match t with
  | none => rfl
  | some n =>
    have : n ≠ 0 := fun hs => h (by rw [hs])
    simp [natOrNull, this]

theorem aget_aset {β : Type} (st : List (String × β)) (k : String) (v : β) :
    aget (aset st k v) k = some v := by
  induction st with
  | nil => simp [aset, aget]
  | cons hd tl ih =>
    by_cases h : hd.1 = k
    · simp [aset, h, aget]
    · simp [aset, h, aget, ih]

theorem decList_map {α : Type} (dec : Json → Option α) (enc : α → Json)
    (h : ∀ a, dec (enc a) = some a) (l : List α) :
    decList dec (l.map enc) = some l := by
  induction l with
  | nil => rfl
  | cons hd tl ih => simp [decList, h hd, ih]

theorem obind_some {α β : Type} (a : α) (f : α → Option β) : obind (some a) f = f a := rfl

theorem decodeBRole_encodeBRole (r : BRole) : decodeBRole (encodeBRole r) = some r := rfl

theorem decodeBOverwrite_encodeBOverwrite (ow : BOverwrite) :
    decodeBOverwrite (encodeBOverwrite ow) = some ow := rfl

theorem optStrJson_asOptStr (t : Option String) : (optStrJson t).asOptStr = some t := by
  cases t <;> rfl

theorem optNatJson_asOptNat (t : Option Nat) : (optNatJson t).asOptNat = some t := by
  cases t <;> rfl

theorem obind_decList_map {α β : Type} (dec : Json → Option α) (enc : α → Json)
    (h : ∀ a, dec (enc a) = some a) (l : List α) (f : List α → Option β) :
    obind (decList dec (l.map enc)) f = f l := by
  rw [decList_map dec enc h]; rfl

theorem obind_decList_map2 {α β γ : Type} (dec1 : Json → Option α) (enc1 : α → Json)
    (h1 : ∀ a, dec1 (enc1 a) = some a) (dec2 : Json → Option β) (enc2 : β → Json)
    (h2 : ∀ b, dec2 (enc2 b) = some b) (l1 : List α) (l2 : List β)
    (f : List α → List β → Option γ) :
    obind (decList dec1 (l1.map enc1))
      (fun x => obind (decList dec2 (l2.map enc2)) (fun y => f x y)) = f l1 l2 := by
  rw [decList_map dec1 enc1 h1, decList_map dec2 enc2 h2]; rfl

theorem decodeBChannel_encodeBChannel (ch : BChannel) :
    decodeBChannel (encodeBChannel ch) = some ch := by
  obtain ⟨id, name, type, parentId, position, rate, nsfw, topic, bitrate, userLimit, ows⟩ := ch
  cases parentId <;> cases topic <;> cases bitrate <;> cases userLimit <;>
    exact obind_decList_map decodeBOverwrite encodeBOverwrite
      decodeBOverwrite_encodeBOverwrite ows _

theorem decodeBMeta_encodeBMeta (m : BMeta) : decodeBMeta (encodeBMeta m) = some m := by
  obtain ⟨guildId, name, iconURL, savedAt⟩ := m
  cases iconURL <;> rfl

theorem decodeBackup_encodeBackup (b : Backup) : decodeBackup (encodeBackup b) = some b := by
  obtain ⟨⟨guildId, gname, iconURL, savedAt⟩, roles, channels⟩ := b
  cases iconURL <;>
    exact obind_decList_map2 decodeBRole encodeBRole decodeBRole_encodeBRole
      decodeBChannel encodeBChannel decodeBChannel_encodeBChannel roles channels _

theorem sum_map_one {α : Type} (l : List α) : (l.map (fun _ => (1 : Nat))).sum = l.length := by
  induction l with
  | nil => rfl
  | cons h t ih => simp [ih, Nat.add_comm]

theorem flatMap_nil_fun {α : Type} (l : List α) :
    (l.flatMap (fun _ => ([] : List Nat))) = [] := by
  induction l with
  | nil => rfl
  | cons h t ih => simp [ih]

theorem roleStep_trace (orc : Oracle) (s : RestoreSt) (r : BRole) :
    (roleStep orc s r).trace = s.trace ++
      [.createRole r.name r.color r.hoist r.mentionable (decFromString r.permissions)] := by
  cases h : orc s.k <;> simp [roleStep, callApi, h]

theorem roleStep_log_ok (orc : Oracle) (s : RestoreSt) (r : BRole) (newId : String)
    (h : orc s.k = .ok newId) : (roleStep orc s r).log = s.log := by
  simp [roleStep, callApi, h]

theorem roleStep_log_err (orc : Oracle) (s : RestoreSt) (r : BRole) (m : String)
    (h : orc s.k = .err m) :
    (roleStep orc s r).log = s.log ++ [.roleCreateFailed r.name m] := by
  simp [roleStep, callApi, h]

theorem categoryStep_trace (gid : String) (orc : Oracle) (s : RestoreSt) (cat : BChannel) :
    (categoryStep gid orc s cat).trace = s.trace ++ [.createCategory cat.name cat.position] ∨
    ∃ newId ows, (categoryStep gid orc s cat).trace =
      s.trace ++ [.createCategory cat.name cat.position, .setOverwrites newId ows] := by
  cases h : orc s.k with
  | err m => left; simp [categoryStep, callApi, h]
  | ok newId =>
    by_cases how : cat.overwrites.isEmpty
    · left; simp [categoryStep, callApi, h, how]
    · right
      refine ⟨newId, cat.overwrites.map (translateOW gid s.roleIdMap), ?_⟩
      cases h2 : orc (s.k + 1) <;>
        simp [categoryStep, callApi, h, how, h2, List.append_assoc]

theorem categoryStep_log_err (gid : String) (orc : Oracle) (s : RestoreSt) (cat : BChannel)
    (m : String) (h : orc s.k = .err m) :
    (categoryStep gid orc s cat).log = s.log ++ [.categoryCreateFailed cat.name m] := by
  simp [categoryStep, callApi, h]

theorem channelStep_trace (gid : String) (orc : Oracle) (s : RestoreSt) (ch : BChannel) :
    (channelStep gid orc s ch).trace = s.trace ++
      [.createChannel (buildChannelPayload ch (resolveParent s.channelIdMap ch.parentId))] ∨
    ∃ newId ows, (channelStep gid orc s ch).trace = s.trace ++
      [.createChannel (buildChannelPayload ch (resolveParent s.channelIdMap ch.parentId)),
       .setOverwrites newId ows] := by
  cases h : orc s.k with
  | err m => left; simp [channelStep, callApi, h]
  | ok newId =>
    by_cases how : ch.overwrites.isEmpty
    · left; simp [channelStep, callApi, h, how]
    · right
      refine ⟨newId, ch.overwrites.map (translateOW gid s.roleIdMap), ?_⟩
      cases h2 : orc (s.k + 1) <;>
        simp [channelStep, callApi, h, how, h2, List.append_assoc]

theorem channelStep_log_err (gid : String) (orc : Oracle) (s : RestoreSt) (ch : BChannel)
    (m : String) (h : orc s.k = .err m) :
    (channelStep gid orc s ch).log = s.log ++ [.channelCreateFailed ch.name m] := by
  simp [channelStep, callApi, h]

theorem buildChannelPayload_position (ch : BChannel) (parent : Option String) :
    (buildChannelPayload ch parent).position = ch.position := by
  unfold buildChannelPayload
  by_cases h1 : isTextLikeT ch.type <;> by_cases h2 : isVoiceLikeT ch.type <;> simp [h1, h2]

theorem foldl_trace_spec {α : Type} (step : RestoreSt → α → RestoreSt)
    (shape : ApiCall → Prop) (p : ApiCall → Bool) (cnt : α → Nat)
    (h : ∀ s a, ∃ t, (step s a).trace = s.trace ++ t ∧ (∀ c ∈ t, shape c) ∧ t.countP p = cnt a) :
    ∀ (l : List α) (s : RestoreSt), ∃ t, (l.foldl step s).trace = s.trace ++ t ∧
      (∀ c ∈ t, shape c) ∧ t.countP p = (l.map cnt).sum := by
  intro l
  induction l with
  | nil => intro s; exact ⟨[], by simp⟩
  | cons a l ih =>
    intro s
    obtain ⟨t1, ht1, hs1, hc1⟩ := h s a
    obtain ⟨t2, ht2, hs2, hc2⟩ := ih (step s a)
    refine ⟨t1 ++ t2, ?_, ?_, ?_⟩
    · simp [List.foldl_cons, ht2, ht1, List.append_assoc]
    · intro c hc
      rcases List.mem_append.mp hc with hc | hc
      · exact hs1 c hc
      · exact hs2 c hc
    · simp [List.countP_append, hc1, hc2]

theorem foldl_trace_filterMap {α : Type} (step : RestoreSt → α → RestoreSt)
    (f : ApiCall → Option Nat) (gfn : α → List Nat)
    (h : ∀ s a, (step s a).trace.filterMap f = s.trace.filterMap f ++ gfn a) :
    ∀ (l : List α) (s : RestoreSt),
      (l.foldl step s).trace.filterMap f = s.trace.filterMap f ++ l.flatMap gfn := by
  intro l
  induction l with
  | nil => intro s; simp
  | cons a l ih =>
    intro s
    simp [List.foldl_cons, ih (step s a), h s a, List.append_assoc]

theorem foldl_log_preserved {α : Type} (step : RestoreSt → α → RestoreSt)
    (h : ∀ s a, (step s a).log = s.log) :
    ∀ (l : List α) (s : RestoreSt), (l.foldl step s).log = s.log := by
  intro l
  induction l with
  | nil => intro s; rfl
  | cons a l ih => intro s; simp [List.foldl_cons, ih (step s a), h s a]

theorem isDeleteChannelB_iff_tag (c : ApiCall) : isDeleteChannelB c = true ↔ kindTag c = 0 := by
  cases c <;> simp [isDeleteChannelB, kindTag]

theorem isDeleteRoleB_iff_tag (c : ApiCall) : isDeleteRoleB c = true ↔ kindTag c = 1 := by
  cases c <;> simp [isDeleteRoleB, kindTag]

theorem isCreateRoleB_iff_tag (c : ApiCall) : isCreateRoleB c = true ↔ kindTag c = 2 := by
  cases c <;> simp [isCreateRoleB, kindTag]

theorem isCreateCategoryB_iff_tag (c : ApiCall) : isCreateCategoryB c = true ↔ kindTag c = 3 := by
  cases c <;> simp [isCreateCategoryB, kindTag]

theorem isCreateChannelB_iff_tag (c : ApiCall) : isCreateChannelB c = true ↔ kindTag c = 4 := by
  cases c <;> simp [isCreateChannelB, kindTag]

theorem countP_zero_of_tags {t : List ApiCall} (p : ApiCall → Bool) (i : Nat)
    (hp : ∀ c, p c = true ↔ kindTag c = i)
    (shape : ∀ c ∈ t, kindTag c ≠ i) : t.countP p = 0 :=
  List.countP_eq_zero.mpr (fun c hc hpc => shape c hc ((hp c).mp hpc))

theorem filterMap_none {α : Type} {t : List ApiCall} (f : ApiCall → Option α)
    (h : ∀ c ∈ t, f c = none) : t.filterMap f = [] := by
  induction t with
  | nil => rfl
  | cons c t ih =>
    rw [List.filterMap_cons, h c (by simp)]
    exact ih (fun c2 hc2 => h c2 (by simp [hc2]))

theorem flatMap_singleton_map {α : Type} (l : List α) (f : α → Nat) :
    l.flatMap (fun a => [f a]) = l.map f := by
  induction l with
  | nil => rfl
  | cons a l ih => simp [ih]

theorem teardownChannels_spec (g : Guild) (orc : Oracle) (s : RestoreSt) :
    ∃ t, (teardownChannels g orc s).trace = s.trace ++ t ∧
      (∀ c ∈ t, kindTag c = 0) ∧ t.countP isDeleteChannelB = g.channels.length := by
  obtain ⟨t, ht, hs, hc⟩ := foldl_trace_spec (teardownChannelStep orc)
    (fun c => kindTag c = 0) isDeleteChannelB (fun _ => 1)
    (fun s ch => ⟨[.deleteChannel ch.id],
      by cases h : orc s.k <;> simp [teardownChannelStep, callApi, h],
      by simp [kindTag], by simp [List.countP_cons, isDeleteChannelB]⟩)
    g.channels s
  exact ⟨t, ht, hs, by rw [hc, sum_map_one]⟩

theorem teardownRoles_spec (g : Guild) (orc : Oracle) (s : RestoreSt) :
    ∃ t, (teardownRoles g orc s).trace = s.trace ++ t ∧
      (∀ c ∈ t, kindTag c = 1) ∧
      t.countP isDeleteRoleB = (g.roles.filter (fun r => !r.managed && r.id != g.id)).length := by
  obtain ⟨t, ht, hs, hc⟩ := foldl_trace_spec
    (fun s r => (callApi orc s (.deleteRole r.id)).2)
    (fun c => kindTag c = 1) isDeleteRoleB (fun _ => 1)
    (fun s r => ⟨[.deleteRole r.id], by simp [callApi], by simp [kindTag],
      by simp [List.countP_cons, isDeleteRoleB]⟩)
    (List.insertionSort roleLE (g.roles.filter (fun r => !r.managed && r.id != g.id))) s
  refine ⟨t, ht, hs, ?_⟩
  rw [hc, sum_map_one,
    (List.perm_insertionSort roleLE (g.roles.filter (fun r => !r.managed && r.id != g.id))).length_eq]

theorem foldl_skip {α β : Type} (q : α → Bool) (step : β → α → β) (l : List α) (s : β) :
    l.foldl (fun s a => if q a then s else step s a) s =
      (l.filter (fun a => !q a)).foldl step s := by
  induction l generalizing s with
  | nil => rfl
  | cons a l ih => by_cases h : q a <;> simp [List.filter_cons, h, ih]

theorem createRolesPhase_spec (g : Guild) (b : Backup) (orc : Oracle) (s : RestoreSt) :
    ∃ t, (createRolesPhase g b orc s).trace = s.trace ++ t ∧
      (∀ c ∈ t, kindTag c = 2) ∧
      t.countP isCreateRoleB = (b.roles.filter (fun r => r.id != g.id)).length := by
  have hphase : createRolesPhase g b orc s =
      (b.roles.filter (fun r => r.id != g.id)).foldl (roleStep orc) s := by
    unfold createRolesPhase
    exact foldl_skip (fun r => r.id == g.id) (roleStep orc) b.roles s
  obtain ⟨t, ht, hs, hc⟩ := foldl_trace_spec (roleStep orc)
    (fun c => kindTag c = 2) isCreateRoleB (fun _ => 1)
    (fun s r => ⟨[.createRole r.name r.color r.hoist r.mentionable (decFromString r.permissions)],
      roleStep_trace orc s r, by simp [kindTag], by simp [List.countP_cons, isCreateRoleB]⟩)
    (b.roles.filter (fun r => r.id != g.id)) s
  exact ⟨t, by rw [hphase, ht], hs, by rw [hc, sum_map_one]⟩

theorem categoryStep_spec (gid : String) (orc : Oracle) (s : RestoreSt) (cat : BChannel) :
    ∃ t, (categoryStep gid orc s cat).trace = s.trace ++ t ∧
      (∀ c ∈ t, kindTag c = 3 ∨ kindTag c = 5) ∧ t.countP isCreateCategoryB = 1 ∧
      t.filterMap catPosOf = [cat.position] := by
  rcases categoryStep_trace gid orc s cat with h | ⟨newId, ows, h⟩
  · exact ⟨[.createCategory cat.name cat.position], h, by simp [kindTag],
      by simp [List.countP_cons, isCreateCategoryB], by simp [catPosOf]⟩
  · exact ⟨[.createCategory cat.name cat.position, .setOverwrites newId ows], h,
      by simp [kindTag], by simp [List.countP_cons, isCreateCategoryB, isSetOverwritesB],
      by simp [catPosOf]⟩

theorem createCategoriesPhase_spec (g : Guild) (b : Backup) (orc : Oracle) (s : RestoreSt) :
    ∃ t, (createCategoriesPhase g b orc s).trace = s.trace ++ t ∧
      (∀ c ∈ t, kindTag c = 3 ∨ kindTag c = 5) ∧
      t.countP isCreateCategoryB =
        (b.channels.filter (fun c => c.type == GuildCategoryT)).length := by
  obtain ⟨t, ht, hs, hc⟩ := foldl_trace_spec (categoryStep g.id orc)
    (fun c => kindTag c = 3 ∨ kindTag c = 5) isCreateCategoryB (fun _ => 1)
    (fun s cat => by
      obtain ⟨t, ht, hs, hc, _⟩ := categoryStep_spec g.id orc s cat
      exact ⟨t, ht, hs, hc⟩)
    (sortedCats b) s
  refine ⟨t, ht, hs, ?_⟩
  rw [hc, sum_map_one]
  unfold sortedCats
  exact (List.perm_insertionSort bchLE _).length_eq

theorem channelStep_spec (gid : String) (orc : Oracle) (s : RestoreSt) (ch : BChannel) :
    ∃ t, (channelStep gid orc s ch).trace = s.trace ++ t ∧
      (∀ c ∈ t, kindTag c = 4 ∨ kindTag c = 5) ∧ t.countP isCreateChannelB = 1 ∧
      t.filterMap chPosOf = [ch.position] := by
  rcases channelStep_trace gid orc s ch with h | ⟨newId, ows, h⟩
  · exact ⟨[.createChannel (buildChannelPayload ch (resolveParent s.channelIdMap ch.parentId))],
      h, by simp [kindTag], by simp [List.countP_cons, isCreateChannelB],
      by simp [chPosOf, buildChannelPayload_position]⟩
  · exact ⟨[.createChannel (buildChannelPayload ch (resolveParent s.channelIdMap ch.parentId)),
      .setOverwrites newId ows], h,
      by simp [kindTag], by simp [List.countP_cons, isCreateChannelB, isSetOverwritesB],
      by simp [chPosOf, buildChannelPayload_position]⟩

theorem createOthersPhase_spec (g : Guild) (b : Backup) (orc : Oracle) (s : RestoreSt) :
    ∃ t, (createOthersPhase g b orc s).trace = s.trace ++ t ∧
      (∀ c ∈ t, kindTag c = 4 ∨ kindTag c = 5) ∧
      t.countP isCreateChannelB =
        (b.channels.filter (fun c => c.type != GuildCategoryT)).length := by
  obtain ⟨t, ht, hs, hc⟩ := foldl_trace_spec (channelStep g.id orc)
    (fun c => kindTag c = 4 ∨ kindTag c = 5) isCreateChannelB (fun _ => 1)
    (fun s ch => by
      obtain ⟨t, ht, hs, hc, _⟩ := channelStep_spec g.id orc s ch
      exact ⟨t, ht, hs, hc⟩)
    (sortedOthers b) s
  refine ⟨t, ht, hs, ?_⟩
  rw [hc, sum_map_one]
  unfold sortedOthers
  exact (List.perm_insertionSort bchLE _).length_eq

theorem metaIcon_spec (b : Backup) (orc : Oracle) (s : RestoreSt) :
    ∃ t, (metaIcon b orc s).trace = s.trace ++ t ∧ ∀ c ∈ t, kindTag c = 7 := by
  unfold metaIcon
  match hu : b.meta.iconURL with
  | none => exact ⟨[], by simp, by simp⟩
  | some u =>
    by_cases hu2 : u = ""
    · exact ⟨[], by simp [hu2], by simp⟩
    · cases h : orc s.k with
      | ok nid => exact ⟨[.setGuildIcon u], by simp [hu2, callApi, h], by simp [kindTag]⟩
      | err m => exact ⟨[.setGuildIcon u], by simp [hu2, callApi, h], by simp [kindTag]⟩

theorem metaPhase_spec (g : Guild) (b : Backup) (orc : Oracle) (s : RestoreSt) :
    ∃ t, (metaPhase g b orc s).trace = s.trace ++ t ∧ ∀ c ∈ t, kindTag c = 6 ∨ kindTag c = 7 := by
  unfold metaPhase
  by_cases hcond : (b.meta.name != "" && g.name != b.meta.name) = true
  · rw [if_pos hcond]
    cases h : orc s.k with
    | err m =>
      exact ⟨[.setGuildName b.meta.name], by simp [callApi, h], by simp [kindTag]⟩
    | ok nid =>
      obtain ⟨t, ht, hs⟩ := metaIcon_spec b orc (callApi orc s (.setGuildName b.meta.name)).2
      refine ⟨[.setGuildName b.meta.name] ++ t, ?_, ?_⟩
      · simp only [callApi] at ht
        simp [callApi, h, ht, List.append_assoc]
      · intro c hc
        rcases List.mem_append.mp hc with hc | hc
        · left; simp at hc; subst hc; rfl
        · right; exact hs c hc
  · rw [if_neg hcond]
    obtain ⟨t, ht, hs⟩ := metaIcon_spec b orc s
    exact ⟨t, ht, fun c hc => Or.inr (hs c hc)⟩

theorem notifyPhase_spec (orc : Oracle) (s : RestoreSt) :
    ∃ t, (notifyPhase orc s).trace = s.trace ++ t ∧ ∀ c ∈ t, kindTag c = 8 := by
  unfold notifyPhase
  match hf : s.cache.find? (fun p => isTextBasedT p.2) with
  | none => exact ⟨[], by simp [hf], by simp⟩
  | some p =>
    exact ⟨[.sendMessage p.1 "✅ バックアップを復元完了しました"], by simp [callApi, hf], by simp [kindTag]⟩

theorem restore_trace_decomp (g : Guild) (b : Backup) (orc : Oracle) :
    ∃ t1 t2 t3 t4 t5 t6 t7,
      (restoreGuildFromBackup g b orc).trace =
        t1 ++ (t2 ++ (t3 ++ (t4 ++ (t5 ++ (t6 ++ (t7 ++
          [.followUp "✅ 完全復元が完了しました"])))))) ∧
      (∀ c ∈ t1, kindTag c = 0) ∧ t1.countP isDeleteChannelB = g.channels.length ∧
      (∀ c ∈ t2, kindTag c = 1) ∧
        t2.countP isDeleteRoleB = (g.roles.filter (fun r => !r.managed && r.id != g.id)).length ∧
      (∀ c ∈ t3, kindTag c = 2) ∧
        t3.countP isCreateRoleB = (b.roles.filter (fun r => r.id != g.id)).length ∧
      (∀ c ∈ t4, kindTag c = 3 ∨ kindTag c = 5) ∧
        t4.countP isCreateCategoryB =
          (b.channels.filter (fun c => c.type == GuildCategoryT)).length ∧
      (∀ c ∈ t5, kindTag c = 4 ∨ kindTag c = 5) ∧
        t5.countP isCreateChannelB =
          (b.channels.filter (fun c => c.type != GuildCategoryT)).length ∧
      (∀ c ∈ t6, kindTag c = 6 ∨ kindTag c = 7) ∧
      (∀ c ∈ t7, kindTag c = 8) := by
  obtain ⟨t1, h1, p1, c1⟩ := teardownChannels_spec g orc (initialRestoreSt g)
  obtain ⟨t2, h2, p2, c2⟩ := teardownRoles_spec g orc
    (teardownChannels g orc (initialRestoreSt g))
  obtain ⟨t3, h3, p3, c3⟩ := createRolesPhase_spec g b orc
    (teardownRoles g orc (teardownChannels g orc (initialRestoreSt g)))
  obtain ⟨t4, h4, p4, c4⟩ := createCategoriesPhase_spec g b orc
    (createRolesPhase g b orc
      (teardownRoles g orc (teardownChannels g orc (initialRestoreSt g))))
  obtain ⟨t5, h5, p5, c5⟩ := createOthersPhase_spec g b orc
    (createCategoriesPhase g b orc
      (createRolesPhase g b orc
        (teardownRoles g orc (teardownChannels g orc (initialRestoreSt g)))))
  obtain ⟨t6, h6, p6⟩ := metaPhase_spec g b orc
    (createOthersPhase g b orc
      (createCategoriesPhase g b orc
        (createRolesPhase g b orc
          (teardownRoles g orc (teardownChannels g orc (initialRestoreSt g))))))
  obtain ⟨t7, h7, p7⟩ := notifyPhase_spec orc
    (metaPhase g b orc
      (createOthersPhase g b orc
        (createCategoriesPhase g b orc
          (createRolesPhase g b orc
            (teardownRoles g orc (teardownChannels g orc (initialRestoreSt g)))))))
  refine ⟨t1, t2, t3, t4, t5, t6, t7, ?_, p1, c1, p2, c2, p3, c3, p4, c4, p5, c5, p6, p7⟩
  have hr : (restoreGuildFromBackup g b orc).trace =
      (notifyPhase orc
        (metaPhase g b orc
          (createOthersPhase g b orc
            (createCategoriesPhase g b orc
              (createRolesPhase g b orc
                (teardownRoles g orc (teardownChannels g orc (initialRestoreSt g)))))))).trace ++
        [.followUp "✅ 完全復元が完了しました"] := rfl
  rw [hr, h7, h6, h5, h4, h3, h2, h1]
  simp [initialRestoreSt, List.append_assoc]

theorem catPosOf_none_of_tag (c : ApiCall) (h : kindTag c ≠ 3) : catPosOf c = none := by
  cases c
  all_goals first
    | rfl
    | (exfalso; exact h rfl)

theorem chPosOf_none_of_tag (c : ApiCall) (h : kindTag c ≠ 4) : chPosOf c = none := by
  cases c
  all_goals first
    | rfl
    | (exfalso; exact h rfl)

theorem trace_filterMap_eq {α : Type} (f : ApiCall → Option α) {tr base t : List ApiCall}
    (h : tr = base ++ t) (hz : ∀ c ∈ t, f c = none) :
    tr.filterMap f = base.filterMap f := by
  rw [h, List.filterMap_append, filterMap_none f hz, List.append_nil]

theorem restore_count_deleteChannel (g : Guild) (b : Backup) (orc : Oracle) :
    (restoreGuildFromBackup g b orc).trace.countP isDeleteChannelB = g.channels.length := by
  obtain ⟨t1, t2, t3, t4, t5, t6, t7, htr, p1, c1, p2, c2, p3, c3, p4, c4, p5, c5, p6, p7⟩ :=
    restore_trace_decomp g b orc
  have z2 : t2.countP isDeleteChannelB = 0 :=
    countP_zero_of_tags _ 0 isDeleteChannelB_iff_tag (fun c hc => by rw [p2 c hc]; omega)
  have z3 : t3.countP isDeleteChannelB = 0 :=
    countP_zero_of_tags _ 0 isDeleteChannelB_iff_tag (fun c hc => by rw [p3 c hc]; omega)
  have z4 : t4.countP isDeleteChannelB = 0 :=
    countP_zero_of_tags _ 0 isDeleteChannelB_iff_tag
      (fun c hc => by rcases p4 c hc with h | h <;> rw [h] <;> omega)
  have z5 : t5.countP isDeleteChannelB = 0 :=
    countP_zero_of_tags _ 0 isDeleteChannelB_iff_tag
      (fun c hc => by rcases p5 c hc with h | h <;> rw [h] <;> omega)
  have z6 : t6.countP isDeleteChannelB = 0 :=
    countP_zero_of_tags _ 0 isDeleteChannelB_iff_tag
      (fun c hc => by rcases p6 c hc with h | h <;> rw [h] <;> omega)
  have z7 : t7.countP isDeleteChannelB = 0 :=
    countP_zero_of_tags _ 0 isDeleteChannelB_iff_tag (fun c hc => by rw [p7 c hc]; omega)
  have zf : List.countP isDeleteChannelB [ApiCall.followUp "✅ 完全復元が完了しました"] = 0 := rfl
  rw [htr]
  simp only [List.countP_append]
  omega

theorem restore_count_deleteRole (g : Guild) (b : Backup) (orc : Oracle) :
    (restoreGuildFromBackup g b orc).trace.countP isDeleteRoleB =
      (g.roles.filter (fun r => !r.managed && r.id != g.id)).length := by
  obtain ⟨t1, t2, t3, t4, t5, t6, t7, htr, p1, c1, p2, c2, p3, c3, p4, c4, p5, c5, p6, p7⟩ :=
    restore_trace_decomp g b orc
  have z1 : t1.countP isDeleteRoleB = 0 :=
    countP_zero_of_tags _ 1 isDeleteRoleB_iff_tag (fun c hc => by rw [p1 c hc]; omega)
  have z3 : t3.countP isDeleteRoleB = 0 :=
    countP_zero_of_tags _ 1 isDeleteRoleB_iff_tag (fun c hc => by rw [p3 c hc]; omega)
  have z4 : t4.countP isDeleteRoleB = 0 :=
    countP_zero_of_tags _ 1 isDeleteRoleB_iff_tag
      (fun c hc => by rcases p4 c hc with h | h <;> rw [h] <;> omega)
  have z5 : t5.countP isDeleteRoleB = 0 :=
    countP_zero_of_tags _ 1 isDeleteRoleB_iff_tag
      (fun c hc => by rcases p5 c hc with h | h <;> rw [h] <;> omega)
  have z6 : t6.countP isDeleteRoleB = 0 :=
    countP_zero_of_tags _ 1 isDeleteRoleB_iff_tag
      (fun c hc => by rcases p6 c hc with h | h <;> rw [h] <;> omega)
  have z7 : t7.countP isDeleteRoleB = 0 :=
    countP_zero_of_tags _ 1 isDeleteRoleB_iff_tag (fun c hc => by rw [p7 c hc]; omega)
  have zf : List.countP isDeleteRoleB [ApiCall.followUp "✅ 完全復元が完了しました"] = 0 := rfl
  rw [htr]
  simp only [List.countP_append]
  omega

theorem restore_count_createRole (g : Guild) (b : Backup) (orc : Oracle) :
    (restoreGuildFromBackup g b orc).trace.countP isCreateRoleB =
      (b.roles.filter (fun r => r.id != g.id)).length := by
  obtain ⟨t1, t2, t3, t4, t5, t6, t7, htr, p1, c1, p2, c2, p3, c3, p4, c4, p5, c5, p6, p7⟩ :=
    restore_trace_decomp g b orc
  have z1 : t1.countP isCreateRoleB = 0 :=
    countP_zero_of_tags _ 2 isCreateRoleB_iff_tag (fun c hc => by rw [p1 c hc]; omega)
  have z2 : t2.countP isCreateRoleB = 0 :=
    countP_zero_of_tags _ 2 isCreateRoleB_iff_tag (fun c hc => by rw [p2 c hc]; omega)
  have z4 : t4.countP isCreateRoleB = 0 :=
    countP_zero_of_tags _ 2 isCreateRoleB_iff_tag
      (fun c hc => by rcases p4 c hc with h | h <;> rw [h] <;> omega)
  have z5 : t5.countP isCreateRoleB = 0 :=
    countP_zero_of_tags _ 2 isCreateRoleB_iff_tag
      (fun c hc => by rcases p5 c hc with h | h <;> rw [h] <;> omega)
  have z6 : t6.countP isCreateRoleB = 0 :=
    countP_zero_of_tags _ 2 isCreateRoleB_iff_tag
      (fun c hc => by rcases p6 c hc with h | h <;> rw [h] <;> omega)
  have z7 : t7.countP isCreateRoleB = 0 :=
    countP_zero_of_tags _ 2 isCreateRoleB_iff_tag (fun c hc => by rw [p7 c hc]; omega)
  have zf : List.countP isCreateRoleB [ApiCall.followUp "✅ 完全復元が完了しました"] = 0 := rfl
  rw [htr]
  simp only [List.countP_append]
  omega

theorem restore_count_createCategory (g : Guild) (b : Backup) (orc : Oracle) :
    (restoreGuildFromBackup g b orc).trace.countP isCreateCategoryB =
      (b.channels.filter (fun c => c.type == GuildCategoryT)).length := by
  obtain ⟨t1, t2, t3, t4, t5, t6, t7, htr, p1, c1, p2, c2, p3, c3, p4, c4, p5, c5, p6, p7⟩ :=
    restore_trace_decomp g b orc
  have z1 : t1.countP isCreateCategoryB = 0 :=
    countP_zero_of_tags _ 3 isCreateCategoryB_iff_tag (fun c hc => by rw [p1 c hc]; omega)
  have z2 : t2.countP isCreateCategoryB = 0 :=
    countP_zero_of_tags _ 3 isCreateCategoryB_iff_tag (fun c hc => by rw [p2 c hc]; omega)
  have z3 : t3.countP isCreateCategoryB = 0 :=
    countP_zero_of_tags _ 3 isCreateCategoryB_iff_tag (fun c hc => by rw [p3 c hc]; omega)
  have z5 : t5.countP isCreateCategoryB = 0 :=
    countP_zero_of_tags _ 3 isCreateCategoryB_iff_tag
      (fun c hc => by rcases p5 c hc with h | h <;> rw [h] <;> omega)
  have z6 : t6.countP isCreateCategoryB = 0 :=
    countP_zero_of_tags _ 3 isCreateCategoryB_iff_tag
      (fun c hc => by rcases p6 c hc with h | h <;> rw [h] <;> omega)
  have z7 : t7.countP isCreateCategoryB = 0 :=
    countP_zero_of_tags _ 3 isCreateCategoryB_iff_tag (fun c hc => by rw [p7 c hc]; omega)
  have zf : List.countP isCreateCategoryB [ApiCall.followUp "✅ 完全復元が完了しました"] = 0 := rfl
  rw [htr]
  simp only [List.countP_append]
  omega

theorem restore_count_createChannel (g : Guild) (b : Backup) (orc : Oracle) :
    (restoreGuildFromBackup g b orc).trace.countP isCreateChannelB =
      (b.channels.filter (fun c => c.type != GuildCategoryT)).length := by
  obtain ⟨t1, t2, t3, t4, t5, t6, t7, htr, p1, c1, p2, c2, p3, c3, p4, c4, p5, c5, p6, p7⟩ :=
    restore_trace_decomp g b orc
  have z1 : t1.countP isCreateChannelB = 0 :=
    countP_zero_of_tags _ 4 isCreateChannelB_iff_tag (fun c hc => by rw [p1 c hc]; omega)
  have z2 : t2.countP isCreateChannelB = 0 :=
    countP_zero_of_tags _ 4 isCreateChannelB_iff_tag (fun c hc => by rw [p2 c hc]; omega)
  have z3 : t3.countP isCreateChannelB = 0 :=
    countP_zero_of_tags _ 4 isCreateChannelB_iff_tag (fun c hc => by rw [p3 c hc]; omega)
  have z4 : t4.countP isCreateChannelB = 0 :=
    countP_zero_of_tags _ 4 isCreateChannelB_iff_tag
      (fun c hc => by rcases p4 c hc with h | h <;> rw [h] <;> omega)
  have z6 : t6.countP isCreateChannelB = 0 :=
    countP_zero_of_tags _ 4 isCreateChannelB_iff_tag
      (fun c hc => by rcases p6 c hc with h | h <;> rw [h] <;> omega)
  have z7 : t7.countP isCreateChannelB = 0 :=
    countP_zero_of_tags _ 4 isCreateChannelB_iff_tag (fun c hc => by rw [p7 c hc]; omega)
  have zf : List.countP isCreateChannelB [ApiCall.followUp "✅ 完全復元が完了しました"] = 0 := rfl
  rw [htr]
  simp only [List.countP_append]
  omega

theorem createCategoriesPhase_filterMap_cat (g : Guild) (b : Backup) (orc : Oracle)
    (s : RestoreSt) :
    (createCategoriesPhase g b orc s).trace.filterMap catPosOf =
      s.trace.filterMap catPosOf ++ (sortedCats b).map (fun c => c.position) := by
  have h := foldl_trace_filterMap (categoryStep g.id orc) catPosOf (fun cat => [cat.position])
    (fun s2 cat => by
      obtain ⟨t, ht, _, _, hfm⟩ := categoryStep_spec g.id orc s2 cat
      rw [ht, List.filterMap_append, hfm])
    (sortedCats b) s
  unfold createCategoriesPhase
  rw [h, flatMap_singleton_map]

theorem createOthersPhase_filterMap_ch (g : Guild) (b : Backup) (orc : Oracle)
    (s : RestoreSt) :
    (createOthersPhase g b orc s).trace.filterMap chPosOf =
      s.trace.filterMap chPosOf ++ (sortedOthers b).map (fun c => c.position) := by
  have h := foldl_trace_filterMap (channelStep g.id orc) chPosOf (fun ch => [ch.position])
    (fun s2 ch => by
      obtain ⟨t, ht, _, _, hfm⟩ := channelStep_spec g.id orc s2 ch
      rw [ht, List.filterMap_append, hfm])
    (sortedOthers b) s
  unfold createOthersPhase
  rw [h, flatMap_singleton_map]

theorem restore_filterMap_catPos (g : Guild) (b : Backup) (orc : Oracle) :
    (restoreGuildFromBackup g b orc).trace.filterMap catPosOf =
      (sortedCats b).map (fun c => c.position) := by
  obtain ⟨t1, h1, p1, _⟩ := teardownChannels_spec g orc (initialRestoreSt g)
  obtain ⟨t2, h2, p2, _⟩ := teardownRoles_spec g orc
    (teardownChannels g orc (initialRestoreSt g))
  obtain ⟨t3, h3, p3, _⟩ := createRolesPhase_spec g b orc
    (teardownRoles g orc (teardownChannels g orc (initialRestoreSt g)))
  obtain ⟨t5, h5, p5, _⟩ := createOthersPhase_spec g b orc
    (createCategoriesPhase g b orc
      (createRolesPhase g b orc
        (teardownRoles g orc (teardownChannels g orc (initialRestoreSt g)))))
  obtain ⟨t6, h6, p6⟩ := metaPhase_spec g b orc
    (createOthersPhase g b orc
      (createCategoriesPhase g b orc
        (createRolesPhase g b orc
          (teardownRoles g orc (teardownChannels g orc (initialRestoreSt g))))))
  obtain ⟨t7, h7, p7⟩ := notifyPhase_spec orc
    (metaPhase g b orc
      (createOthersPhase g b orc
        (createCategoriesPhase g b orc
          (createRolesPhase g b orc
            (teardownRoles g orc (teardownChannels g orc (initialRestoreSt g)))))))
  have hr : (restoreGuildFromBackup g b orc).trace =
      (notifyPhase orc
        (metaPhase g b orc
          (createOthersPhase g b orc
            (createCategoriesPhase g b orc
              (createRolesPhase g b orc
                (teardownRoles g orc (teardownChannels g orc (initialRestoreSt g)))))))).trace ++
        [.followUp "✅ 完全復元が完了しました"] := rfl
  rw [hr, List.filterMap_append]
  rw [trace_filterMap_eq catPosOf h7
    (fun c hc => catPosOf_none_of_tag c (by rw [p7 c hc]; omega))]
  rw [trace_filterMap_eq catPosOf h6
    (fun c hc => catPosOf_none_of_tag c (by rcases p6 c hc with h | h <;> rw [h] <;> omega))]
  rw [trace_filterMap_eq catPosOf h5
    (fun c hc => catPosOf_none_of_tag c (by rcases p5 c hc with h | h <;> rw [h] <;> omega))]
  rw [createCategoriesPhase_filterMap_cat g b orc]
  rw [trace_filterMap_eq catPosOf h3
    (fun c hc => catPosOf_none_of_tag c (by rw [p3 c hc]; omega))]
  rw [trace_filterMap_eq catPosOf h2
    (fun c hc => catPosOf_none_of_tag c (by rw [p2 c hc]; omega))]
  rw [trace_filterMap_eq catPosOf h1
    (fun c hc => catPosOf_none_of_tag c (by rw [p1 c hc]; omega))]
  simp [initialRestoreSt, catPosOf]

theorem restore_filterMap_chPos (g : Guild) (b : Backup) (orc : Oracle) :
    (restoreGuildFromBackup g b orc).trace.filterMap chPosOf =
      (sortedOthers b).map (fun c => c.position) := by
  obtain ⟨t1, h1, p1, _⟩ := teardownChannels_spec g orc (initialRestoreSt g)
  obtain ⟨t2, h2, p2, _⟩ := teardownRoles_spec g orc
    (teardownChannels g orc (initialRestoreSt g))
  obtain ⟨t3, h3, p3, _⟩ := createRolesPhase_spec g b orc
    (teardownRoles g orc (teardownChannels g orc (initialRestoreSt g)))
  obtain ⟨t4, h4, p4, _⟩ := createCategoriesPhase_spec g b orc
    (createRolesPhase g b orc
      (teardownRoles g orc (teardownChannels g orc (initialRestoreSt g))))
  obtain ⟨t6, h6, p6⟩ := metaPhase_spec g b orc
    (createOthersPhase g b orc
      (createCategoriesPhase g b orc
        (createRolesPhase g b orc
          (teardownRoles g orc (teardownChannels g orc (initialRestoreSt g))))))
  obtain ⟨t7, h7, p7⟩ := notifyPhase_spec orc
    (metaPhase g b orc
      (createOthersPhase g b orc
        (createCategoriesPhase g b orc
          (createRolesPhase g b orc
            (teardownRoles g orc (teardownChannels g orc (initialRestoreSt g)))))))
  have hr : (restoreGuildFromBackup g b orc).trace =
      (notifyPhase orc
        (metaPhase g b orc
          (createOthersPhase g b orc
            (createCategoriesPhase g b orc
              (createRolesPhase g b orc
                (teardownRoles g orc (teardownChannels g orc (initialRestoreSt g)))))))).trace ++
        [.followUp "✅ 完全復元が完了しました"] := rfl
  rw [hr, List.filterMap_append]
  rw [trace_filterMap_eq chPosOf h7
    (fun c hc => chPosOf_none_of_tag c (by rw [p7 c hc]; omega))]
  rw [trace_filterMap_eq chPosOf h6
    (fun c hc => chPosOf_none_of_tag c (by rcases p6 c hc with h | h <;> rw [h] <;> omega))]
  rw [createOthersPhase_filterMap_ch g b orc]
  rw [trace_filterMap_eq chPosOf h4
    (fun c hc => chPosOf_none_of_tag c (by rcases p4 c hc with h | h <;> rw [h] <;> omega))]
  rw [trace_filterMap_eq chPosOf h3
    (fun c hc => chPosOf_none_of_tag c (by rw [p3 c hc]; omega))]
  rw [trace_filterMap_eq chPosOf h2
    (fun c hc => chPosOf_none_of_tag c (by rw [p2 c hc]; omega))]
  rw [trace_filterMap_eq chPosOf h1
    (fun c hc => chPosOf_none_of_tag c (by rw [p1 c hc]; omega))]
  simp [initialRestoreSt, chPosOf]

theorem sortedCats_positions_sorted (b : Backup) :
    List.Sorted (fun a b => a ≤ b) ((sortedCats b).map (fun c => c.position)) :=
  List.pairwise_map.mpr
    (List.sorted_insertionSort bchLE (b.channels.filter (fun c => c.type == GuildCategoryT)))

theorem sortedOthers_positions_sorted (b : Backup) :
    List.Sorted (fun a b => a ≤ b) ((sortedOthers b).map (fun c => c.position)) :=
  List.pairwise_map.mpr
    (List.sorted_insertionSort bchLE (b.channels.filter (fun c => c.type != GuildCategoryT)))

theorem isCreateChannelB_false_of_tag (c : ApiCall) (h : kindTag c ≠ 4) :
    isCreateChannelB c = false := by
  cases hb : isCreateChannelB c
  · rfl
  · exact absurd ((isCreateChannelB_iff_tag c).mp hb) h

theorem isCreateCategoryB_false_of_tag (c : ApiCall) (h : kindTag c ≠ 3) :
    isCreateCategoryB c = false := by
  cases hb : isCreateCategoryB c
  · rfl
  · exact absurd ((isCreateCategoryB_iff_tag c).mp hb) h

/-- C1: for every snapshot S and every server id g, calling
`saveGuildBackup(g, S)` and then `loadGuildBackup(g)` returns a
snapshot structurally equal to S (round-trip through the JSON file
store). -/
theorem C1_save_load_round_trip (st : BackupStore) (guildId : String) (S : Backup) :
    loadGuildBackup (saveGuildBackup st guildId S) guildId = some S := by
  unfold loadGuildBackup saveGuildBackup
  rw [aget_aset]
  exact decodeBackup_encodeBackup S

/-- C9: a call rate-limited on every attempt makes exactly the 3 paced
attempts, sleeping the strictly increasing, linearly growing delays
attempt × 1500 ms (1.5 s, 3 s, 4.5 s), and is then reported as
permanently failed; a non-rate-limit error is rethrown immediately
after the first attempt, with no delay slept and no retry. -/
theorem C9_translate_retry (orc : TransOracle) :
    ((∀ j, j < 3 → orc j = .fail .tooManyRequests) →
      translateWithRetry orc 3 = ⟨.exhausted, 3, [1500, 3000, 4500]⟩ ∧
      List.Chain' (fun a b => a < b) [1500, 3000, 4500] ∧
      [1500, 3000, 4500] = [1 * 1500, 2 * 1500, 3 * 1500]) ∧
    (∀ n, orc 0 = .fail (.other n) → translateWithRetry orc 3 = ⟨.threw n, 1, []⟩) := by
  constructor
  · intro h
    have h0 := h 0 (by omega)
    have h1 := h 1 (by omega)
    have h2 := h 2 (by omega)
    refine ⟨?_, by norm_num [List.chain'_cons], by norm_num⟩
    show translateGo orc 3 0 [] = ⟨.exhausted, 3, [1500, 3000, 4500]⟩
    rw [show (3 : Nat) = 2 + 1 from rfl, translateGo, h0]
    rw [show (2 : Nat) = 1 + 1 from rfl, translateGo, h1]
    rw [show (1 : Nat) = 0 + 1 from rfl, translateGo, h2]
    rfl
  · intro n h0
    show translateGo orc 3 0 [] = ⟨.threw n, 1, []⟩
    rw [show (3 : Nat) = 2 + 1 from rfl, translateGo, h0]

/-- C9 witness: both branches at concrete oracles. -/
theorem C9_translate_retry_witness :
    (translateWithRetry (fun _ => .fail .tooManyRequests) 3 =
        ⟨.exhausted, 3, [1500, 3000, 4500]⟩ ∧
      List.Chain' (fun a b => a < b) [1500, 3000, 4500] ∧
      [1500, 3000, 4500] = [1 * 1500, 2 * 1500, 3 * 1500]) ∧
    translateWithRetry (fun _ => .fail (.other "boom")) 3 = ⟨.threw "boom", 1, []⟩ := by
  refine ⟨(C9_translate_retry (fun _ => .fail .tooManyRequests)).1 (fun j hj => rfl), ?_⟩
  exact (C9_translate_retry (fun _ => .fail (.other "boom"))).2 "boom" rfl

/-- C5: in every restore trace, all category creation calls are issued
(and, the calls being strictly sequential, completed) before any
non-category channel creation call, and the category creations and the
other channel creations are each issued in ascending snapshot-position
order, for every oracle (so independent of per-call failures). -/
theorem C5_categories_before_channels (g : Guild) (b : Backup) (orc : Oracle) :
    (∃ A B, (restoreGuildFromBackup g b orc).trace = A ++ B ∧
      (∀ c ∈ A, isCreateChannelB c = false) ∧
      (∀ c ∈ B, isCreateCategoryB c = false)) ∧
    List.Sorted (fun a b => a ≤ b)
      ((restoreGuildFromBackup g b orc).trace.filterMap catPosOf) ∧
    List.Sorted (fun a b => a ≤ b)
      ((restoreGuildFromBackup g b orc).trace.filterMap chPosOf) := by
  refine ⟨?_, ?_, ?_⟩
  · obtain ⟨t1, t2, t3, t4, t5, t6, t7, htr, p1, _, p2, _, p3, _, p4, _, p5, _, p6, p7⟩ :=
      restore_trace_decomp g b orc
    refine ⟨t1 ++ (t2 ++ (t3 ++ t4)),
      t5 ++ (t6 ++ (t7 ++ [.followUp "✅ 完全復元が完了しました"])), ?_, ?_, ?_⟩
    · rw [htr]; simp [List.append_assoc]
    · intro c hc
      simp only [List.mem_append] at hc
      rcases hc with (hc | hc | hc | hc)
      · exact isCreateChannelB_false_of_tag c (by rw [p1 c hc]; omega)
      · exact isCreateChannelB_false_of_tag c (by rw [p2 c hc]; omega)
      · exact isCreateChannelB_false_of_tag c (by rw [p3 c hc]; omega)
      · exact isCreateChannelB_false_of_tag c
          (by rcases p4 c hc with h | h <;> rw [h] <;> omega)
    · intro c hc
      simp only [List.mem_append, List.mem_singleton] at hc
      rcases hc with (hc | hc | hc | hc)
      · exact isCreateCategoryB_false_of_tag c
          (by rcases p5 c hc with h | h <;> rw [h] <;> omega)
      · exact isCreateCategoryB_false_of_tag c
          (by rcases p6 c hc with h | h <;> rw [h] <;> omega)
      · exact isCreateCategoryB_false_of_tag c (by rw [p7 c hc]; omega)
      · subst hc; exact isCreateCategoryB_false_of_tag _ (by simp [kindTag])
  · rw [restore_filterMap_catPos]; exact sortedCats_positions_sorted b
  · rw [restore_filterMap_chPos]; exact sortedOthers_positions_sorted b

/-- C8: every snapshot produced by the collector excludes managed
roles, lists roles and channels sorted ascending by stored position,
keeps for each channel only the role-scoped (type 0) overwrites, and
encodes every permission/allow/deny bit field as a decimal string that
parses back to the original mask. -/
theorem C8_collector_shape (g : Guild) (savedAt : String) :
    List.Sorted (fun a b => a.position ≤ b.position) (collectGuildBackup g savedAt).roles ∧
    List.Sorted (fun a b => a.position ≤ b.position) (collectGuildBackup g savedAt).channels ∧
    (collectGuildBackup g savedAt).roles.Perm
      ((g.roles.filter (fun r => !r.managed)).map roleToBackup) ∧
    (collectGuildBackup g savedAt).channels.Perm (g.channels.map channelToBackup) ∧
    (∀ br ∈ (collectGuildBackup g savedAt).roles, ∃ r ∈ g.roles, r.managed = false ∧
      br = roleToBackup r ∧ br.permissions = decToString r.permissionsBits ∧
      decFromString br.permissions = r.permissionsBits) ∧
    (∀ bc ∈ (collectGuildBackup g savedAt).channels, ∀ ow ∈ bc.overwrites, ow.type = 0) ∧
    (∀ bc ∈ (collectGuildBackup g savedAt).channels, ∃ ch ∈ g.channels,
      bc = channelToBackup ch ∧
      bc.overwrites = (ch.overwrites.filter (fun ow => ow.type == 0)).map owToBackup ∧
      ∀ ow ∈ ch.overwrites,
        decFromString (owToBackup ow).allow = ow.allowBits ∧
        decFromString (owToBackup ow).deny = ow.denyBits) := by
  refine ⟨?_, ?_, ?_, ?_, ?_, ?_, ?_⟩
  · exact List.pairwise_map.mpr
      (List.sorted_insertionSort roleLE (g.roles.filter (fun r => !r.managed)))
  · exact List.pairwise_map.mpr (List.sorted_insertionSort chLE g.channels)
  · exact (List.perm_insertionSort roleLE (g.roles.filter (fun r => !r.managed))).map roleToBackup
  · exact (List.perm_insertionSort chLE g.channels).map channelToBackup
  · intro br hbr
    obtain ⟨r, hr, hbr2⟩ := List.mem_map.mp hbr
    have hr2 : r ∈ g.roles.filter (fun r => !r.managed) :=
      (List.mem_insertionSort roleLE).mp hr
    obtain ⟨hrg, hrm⟩ := List.mem_filter.mp hr2
    refine ⟨r, hrg, by simpa using hrm, hbr2.symm, ?_, ?_⟩
    · rw [← hbr2]; rfl
    · rw [← hbr2]
      exact decFromString_decToString r.permissionsBits
  · intro bc hbc ow how
    obtain ⟨ch, hch, hbc2⟩ := List.mem_map.mp hbc
    subst hbc2
    obtain ⟨ow2, how2, how3⟩ := List.mem_map.mp how
    rw [← how3]
    rfl
  · intro bc hbc
    obtain ⟨ch, hch, hbc2⟩ := List.mem_map.mp hbc
    refine ⟨ch, (List.mem_insertionSort chLE).mp hch, hbc2.symm, by rw [← hbc2]; rfl, ?_⟩
    intro ow how
    exact ⟨decFromString_decToString ow.allowBits, decFromString_decToString ow.denyBits⟩

/-- C6: during restore, a non-category channel whose `parentId` names
an id absent from the old-to-new channel id map (e.g. because that
category's creation failed) is still created — the creation call is
issued with parent resolved to none — and on success its own mapping is
still recorded, rather than the run aborting. -/
theorem C6_missing_parent_resolves_null (gid : String) (orc : Oracle) (s : RestoreSt)
    (ch : BChannel) (p : String) (hp : ch.parentId = some p)
    (hnone : aget s.channelIdMap p = none) :
    (∃ t, (channelStep gid orc s ch).trace =
        s.trace ++ ApiCall.createChannel (buildChannelPayload ch none) :: t) ∧
    ∀ nid, orc s.k = CallRes.ok nid →
      (channelStep gid orc s ch).channelIdMap = (ch.id, nid) :: s.channelIdMap := by
  have hres : resolveParent s.channelIdMap ch.parentId = none := by
    rw [hp]; unfold resolveParent; by_cases hpe : p = "" <;> simp [hpe, hnone]
  constructor
  · rcases channelStep_trace gid orc s ch with h | ⟨newId, ows, h⟩
    · rw [hres] at h; exact ⟨[], h⟩
    · rw [hres] at h; exact ⟨[.setOverwrites newId ows], h⟩
  · intro nid hok
    by_cases how : ch.overwrites.isEmpty
    · simp [channelStep, callApi, hok, how]
    · cases h2 : orc (s.k + 1) <;> simp [channelStep, callApi, hok, how, h2]

/-- C6 witness at a concrete channel whose parent id is unmapped. -/
theorem C6_missing_parent_resolves_null_witness :
    (∃ t, (channelStep "g" (fun _ => .ok "newX") emptyRestoreSt c6ch).trace =
        emptyRestoreSt.trace ++
          ApiCall.createChannel (buildChannelPayload c6ch none) :: t) ∧
    ∀ nid, (fun _ => CallRes.ok "newX") emptyRestoreSt.k = CallRes.ok nid →
      (channelStep "g" (fun _ => .ok "newX") emptyRestoreSt c6ch).channelIdMap =
        (c6ch.id, nid) :: emptyRestoreSt.channelIdMap :=
  C6_missing_parent_resolves_null "g" (fun _ => .ok "newX") emptyRestoreSt c6ch
    "cat-gone" rfl rfl

/-- C7: an overwrite whose principal id is unmapped in the role id map
is translated with the guild id (the live default role) as principal,
and the batched overwrite application call is still issued in full —
the unmapped principal never by itself prevents or fails the call. -/
theorem C7_unmapped_principal_falls_back (gid : String) (m : List (String × String))
    (ow : BOverwrite) (hnone : aget m ow.id = none) :
    (translateOW gid m ow).id = gid ∧
    ∀ (orc : Oracle) (s : RestoreSt) (ch : BChannel) (nid : String),
      s.roleIdMap = m → orc s.k = CallRes.ok nid → ch.overwrites ≠ [] →
      (channelStep gid orc s ch).trace = s.trace ++
        [.createChannel (buildChannelPayload ch (resolveParent s.channelIdMap ch.parentId)),
         .setOverwrites nid (ch.overwrites.map (translateOW gid m))] := by
  constructor
  · unfold translateOW
    rw [hnone]
    rfl
  · intro orc s ch nid hm hok hne
    have how : ch.overwrites.isEmpty = false := by
      cases h : ch.overwrites with
      | nil => exact absurd h hne
      | cons a l => rfl
    subst hm
    cases h2 : orc (s.k + 1) <;>
      simp [channelStep, callApi, hok, how, h2, List.append_assoc]

/-- C7 witness at a concrete overwrite with an unmapped principal. -/
theorem C7_unmapped_principal_falls_back_witness :
    (translateOW "g" [] ⟨"role-gone", "1024", "0", 0⟩).id = "g" ∧
    (channelStep "g" (fun _ => .ok "n1") emptyRestoreSt c7ch).trace =
      emptyRestoreSt.trace ++
        [.createChannel (buildChannelPayload c7ch
          (resolveParent emptyRestoreSt.channelIdMap c7ch.parentId)),
         .setOverwrites "n1" (c7ch.overwrites.map (translateOW "g" []))] := by
  have h := C7_unmapped_principal_falls_back "g" [] ⟨"role-gone", "1024", "0", 0⟩ rfl
  exact ⟨h.1, h.2 (fun _ => .ok "n1") emptyRestoreSt c7ch "n1" rfl rfl (by decide)⟩

theorem nukeCapturedOWs_isEmpty (ch : LiveChannel) :
    (nukeCapturedOWs ch).isEmpty = ch.overwrites.isEmpty := by
  unfold nukeCapturedOWs
  cases ch.overwrites <;> rfl

theorem nukeChannel_allok_trace (g : Guild) (ch : LiveChannel) (savedAt : String)
    (st0 : BackupStore) (ids : Nat → String) :
    (nukeChannel g ch savedAt st0 (fun k => .ok (ids k))).trace =
      (if ch.overwrites.isEmpty then
        [.createChannel (nukePayload ch), .deleteChannel ch.id,
         .followUp "💥 チャンネルをNukeしました", .sendMessage (ids 0) "✅ チャンネルをNukeしました"]
      else
        [.createChannel (nukePayload ch), .setOverwrites (ids 0) (nukeApplied ch),
         .deleteChannel ch.id, .followUp "💥 チャンネルをNukeしました",
         .sendMessage (ids 0) "✅ チャンネルをNukeしました"]) ∧
    (nukeChannel g ch savedAt st0 (fun k => .ok (ids k))).isThrew = false := by
  by_cases how : ch.overwrites.isEmpty
  · constructor <;>
      simp [nukeChannel, nukeCall, nukeCapturedOWs_isEmpty, how, NukeResult.trace,
        NukeResult.isThrew]
  · constructor <;>
      simp [nukeChannel, nukeCall, nukeCapturedOWs_isEmpty, how, NukeResult.trace,
        NukeResult.isThrew]

/-- C10: nuke never deletes the original channel before the
replacement has been created: if the creation call fails, nuke rethrows
with only the creation call in its trace and no deletion attempted; and
in every run, a deletion of the original can only appear in the trace
when the creation call succeeded. -/
theorem C10_no_delete_before_create (g : Guild) (ch : LiveChannel) (savedAt : String)
    (st0 : BackupStore) (orc : Oracle) :
    (∀ m, orc 0 = .err m →
      nukeChannel g ch savedAt st0 orc =
        .threw m ⟨1, [.createChannel (nukePayload ch)]⟩
          (saveGuildBackup st0 g.id (collectGuildBackup g savedAt)) ∧
      ApiCall.deleteChannel ch.id ∉ (nukeChannel g ch savedAt st0 orc).trace) ∧
    (ApiCall.deleteChannel ch.id ∈ (nukeChannel g ch savedAt st0 orc).trace →
      ∃ nid, orc 0 = .ok nid) := by
  constructor
  · intro m h0
    have he : nukeChannel g ch savedAt st0 orc =
        .threw m ⟨1, [.createChannel (nukePayload ch)]⟩
          (saveGuildBackup st0 g.id (collectGuildBackup g savedAt)) := by
      simp [nukeChannel, nukeCall, h0]
    refine ⟨he, ?_⟩
    rw [he]
    simp [NukeResult.trace]
  · intro hmem
    cases h0 : orc 0 with
    | ok nid => exact ⟨nid, rfl⟩
    | err m =>
      exfalso
      rw [show (nukeChannel g ch savedAt st0 orc).trace = [.createChannel (nukePayload ch)]
        from by simp [nukeChannel, nukeCall, h0, NukeResult.trace]] at hmem
      simp at hmem

/-- C10 witness: a failing creation aborts with no deletion; a
successful creation is what a traced deletion implies. -/
theorem C10_no_delete_before_create_witness :
    (nukeChannel g10 ch10 "t" [] (fun _ => .err "boom") =
      .threw "boom" ⟨1, [.createChannel (nukePayload ch10)]⟩
        (saveGuildBackup [] g10.id (collectGuildBackup g10 "t")) ∧
      ApiCall.deleteChannel ch10.id ∉
        (nukeChannel g10 ch10 "t" [] (fun _ => .err "boom")).trace) ∧
    (∃ nid, (fun _ => CallRes.ok "n1") 0 = CallRes.ok nid) := by
  refine ⟨(C10_no_delete_before_create g10 ch10 "t" [] (fun _ => .err "boom")).1 "boom" rfl, ?_⟩
  exact (C10_no_delete_before_create g10 ch10 "t" [] (fun _ => .ok "n1")).2 (by decide)

theorem nukeApplied_eq (ch : LiveChannel) :
    nukeApplied ch = ch.overwrites.map
      (fun ow => (⟨ow.id, ow.allowBits, ow.denyBits, ow.type⟩ : AppliedOW)) := by
  unfold nukeApplied nukeCapturedOWs
  rw [List.map_map]
  apply List.map_congr_left
  intro ow _
  simp [Function.comp, decFromString_decToString]

/-- C3 counterexample: on a channel whose only overwrite is
member-scoped (`type = 1`, so K = 0 role-scoped overwrites), nuke
still captures it and re-applies it onto the replacement — the batched
call carries that type-1 overwrite — contradicting "reapplies exactly
the channel's role-only overwrites; member-scoped overwrites are not
captured" (the collector filters `ow.type === 0`; `nukeChannel` does
not). -/
theorem C3_counterexample :
    (nukeChannel g3 ch3 "t" [] (fun _ => .ok "n1")).trace[1]? =
      some (.setOverwrites "n1" [⟨"m1", 5, 2, 1⟩]) ∧
    ch3.overwrites.filter (fun ow => ow.type == 0) = [] := by decide

/-- C3 amended: when every call succeeds, nuke creates a replacement
from a payload with identical name, kind, position, topic, bitrate and
userLimit (topic/bitrate/userLimit assumed not falsy, which the `||
null` normalization maps to null), re-applies ALL of the channel's
overwrites — role- and member-scoped alike — with the same principal,
allow, deny and type, and issues the deletion of the original channel. -/
theorem C3_amended_nuke_rebuild (g : Guild) (ch : LiveChannel) (savedAt : String)
    (st0 : BackupStore) (ids : Nat → String)
    (htopic : ch.topic ≠ some "") (hbit : ch.bitrate ≠ some 0) (hul : ch.userLimit ≠ some 0) :
    ((nukePayload ch).name = ch.name ∧ (nukePayload ch).type = ch.type ∧
     (nukePayload ch).position = ch.rawPosition ∧ (nukePayload ch).topic = ch.topic ∧
     (nukePayload ch).bitrate = ch.bitrate ∧ (nukePayload ch).userLimit = ch.userLimit) ∧
    ApiCall.createChannel (nukePayload ch) ∈
      (nukeChannel g ch savedAt st0 (fun k => .ok (ids k))).trace ∧
    (ch.overwrites ≠ [] →
      ApiCall.setOverwrites (ids 0) (nukeApplied ch) ∈
        (nukeChannel g ch savedAt st0 (fun k => .ok (ids k))).trace) ∧
    nukeApplied ch = ch.overwrites.map
      (fun ow => (⟨ow.id, ow.allowBits, ow.denyBits, ow.type⟩ : AppliedOW)) ∧
    ApiCall.deleteChannel ch.id ∈
      (nukeChannel g ch savedAt st0 (fun k => .ok (ids k))).trace ∧
    (nukeChannel g ch savedAt st0 (fun k => .ok (ids k))).isThrew = false := by
  obtain ⟨htr, hth⟩ := nukeChannel_allok_trace g ch savedAt st0 ids
  refine ⟨⟨rfl, rfl, rfl, strOrNull_eq_of_ne htopic, natOrNull_eq_of_ne hbit,
    natOrNull_eq_of_ne hul⟩, ?_, ?_, nukeApplied_eq ch, ?_, hth⟩
  · rw [htr]; by_cases how : ch.overwrites.isEmpty <;> simp [how]
  · intro hne
    have how : ch.overwrites.isEmpty = false := by
      cases h : ch.overwrites with
      | nil => exact absurd h hne
      | cons a l => rfl
    rw [htr]; simp [how]
  · rw [htr]; by_cases how : ch.overwrites.isEmpty <;> simp [how]

/-- C3 amended witness at a concrete channel with one role-scoped and
one member-scoped overwrite. -/
theorem C3_amended_nuke_rebuild_witness :
    ApiCall.createChannel (nukePayload ch3w) ∈
      (nukeChannel g3w ch3w "t" [] (fun _ => .ok "n1")).trace ∧
    ApiCall.setOverwrites "n1" (nukeApplied ch3w) ∈
      (nukeChannel g3w ch3w "t" [] (fun _ => .ok "n1")).trace ∧
    ApiCall.deleteChannel ch3w.id ∈
      (nukeChannel g3w ch3w "t" [] (fun _ => .ok "n1")).trace ∧
    (nukeChannel g3w ch3w "t" [] (fun _ => .ok "n1")).isThrew = false := by
  have h := C3_amended_nuke_rebuild g3w ch3w "t" [] (fun _ => "n1")
    (by decide) (by decide) (by decide)
  exact ⟨h.2.1, h.2.2.1 (by decide), h.2.2.2.2.1, h.2.2.2.2.2⟩

/-- C4 amended: if the creation succeeds but re-applying the captured
overwrites fails, the exception escapes `nukeChannel`: the replacement
channel still exists with default permissions (no call deletes it), the
overwrite call is not retried (it appears exactly once), but the
original channel is NOT deleted and no confirmation is posted; the
interaction handler's catch logs the error and replies with a generic
error message. -/
theorem C4_amended_overwrite_failure (g : Guild) (ch : LiveChannel) (savedAt : String)
    (st0 : BackupStore) (orc : Oracle) (nid m : String)
    (h0 : orc 0 = .ok nid) (hne : ch.overwrites ≠ []) (h1 : orc 1 = .err m) :
    nukeChannel g ch savedAt st0 orc =
      .threw m ⟨2, [.createChannel (nukePayload ch), .setOverwrites nid (nukeApplied ch)]⟩
        (saveGuildBackup st0 g.id (collectGuildBackup g savedAt)) ∧
    ApiCall.deleteChannel ch.id ∉ (nukeChannel g ch savedAt st0 orc).trace ∧
    ApiCall.deleteChannel nid ∉ (nukeChannel g ch savedAt st0 orc).trace ∧
    (nukeChannel g ch savedAt st0 orc).trace.countP isSetOverwritesB = 1 ∧
    (∀ txt, ApiCall.followUp txt ∉ (nukeChannel g ch savedAt st0 orc).trace) ∧
    (handleNukeCommand g ch savedAt st0 orc).handlerLog = ["Interaction error: " ++ m] ∧
    (handleNukeCommand g ch savedAt st0 orc).errorReply = some "❌ エラーが発生しました" := by
  have how : ch.overwrites.isEmpty = false := by
    cases h : ch.overwrites with
    | nil => exact absurd h hne
    | cons a l => rfl
  have he : nukeChannel g ch savedAt st0 orc =
      .threw m ⟨2, [.createChannel (nukePayload ch), .setOverwrites nid (nukeApplied ch)]⟩
        (saveGuildBackup st0 g.id (collectGuildBackup g savedAt)) := by
    simp [nukeChannel, nukeCall, h0, h1, nukeCapturedOWs_isEmpty, how]
  refine ⟨he, ?_, ?_, ?_, ?_, ?_, ?_⟩
  · rw [he]; simp [NukeResult.trace]
  · rw [he]; simp [NukeResult.trace]
  · rw [he]; simp [NukeResult.trace, List.countP_cons, isSetOverwritesB]
  · intro txt; rw [he]; simp [NukeResult.trace]
  · unfold handleNukeCommand; rw [he]
  · unfold handleNukeCommand; rw [he]

/-- C4 counterexample: with the overwrite re-application failing, nuke
aborts — there is an overwrite to apply and its application failed, yet
the original channel is never deleted and no confirmation is posted —
contradicting "the rest of the nuke operation (deleting the original
channel and posting the confirmation) still completes". -/
theorem C4_counterexample :
    (nukeChannel g4 ch4 "t" [] orc4).isThrew = true ∧
    ApiCall.deleteChannel ch4.id ∉ (nukeChannel g4 ch4 "t" [] orc4).trace ∧
    ApiCall.followUp "💥 チャンネルをNukeしました" ∉ (nukeChannel g4 ch4 "t" [] orc4).trace ∧
    ch4.overwrites ≠ [] ∧ orc4 1 = .err "boom" := by decide

/-- C4 amended witness at the same concrete input. -/
theorem C4_amended_overwrite_failure_witness :
    nukeChannel g4 ch4 "t" [] orc4 =
      .threw "boom" ⟨2, [.createChannel (nukePayload ch4), .setOverwrites "n1" (nukeApplied ch4)]⟩
        (saveGuildBackup [] g4.id (collectGuildBackup g4 "t")) ∧
    (handleNukeCommand g4 ch4 "t" [] orc4).handlerLog = ["Interaction error: " ++ "boom"] ∧
    (handleNukeCommand g4 ch4 "t" [] orc4).errorReply = some "❌ エラーが発生しました" := by
  have h := C4_amended_overwrite_failure g4 ch4 "t" [] orc4 "n1" "boom" rfl (by decide) rfl
  exact ⟨h.1, h.2.2.2.2.2.1, h.2.2.2.2.2.2⟩

theorem teardownChannels_log (g : Guild) (orc : Oracle) (s : RestoreSt) :
    (teardownChannels g orc s).log = s.log := by
  unfold teardownChannels
  exact foldl_log_preserved (teardownChannelStep orc)
    (fun s2 ch => by cases h : orc s2.k <;> simp [teardownChannelStep, callApi, h])
    g.channels s

theorem teardownRoles_log (g : Guild) (orc : Oracle) (s : RestoreSt) :
    (teardownRoles g orc s).log = s.log := by
  unfold teardownRoles
  exact foldl_log_preserved (fun s2 (r : LiveRole) => (callApi orc s2 (.deleteRole r.id)).2)
    (fun s2 r => rfl) _ s

theorem categoryStep_log_owfail (gid : String) (orc : Oracle) (s : RestoreSt) (cat : BChannel)
    (nid m : String) (h0 : orc s.k = .ok nid) (hne : cat.overwrites ≠ [])
    (h1 : orc (s.k + 1) = .err m) :
    (categoryStep gid orc s cat).log = s.log ++ [.categoryCreateFailed cat.name m] := by
  have how : cat.overwrites.isEmpty = false := by
    cases h : cat.overwrites with
    | nil => exact absurd h hne
    | cons a l => rfl
  simp [categoryStep, callApi, h0, how, h1]

theorem channelStep_log_owfail (gid : String) (orc : Oracle) (s : RestoreSt) (ch : BChannel)
    (nid m : String) (h0 : orc s.k = .ok nid) (hne : ch.overwrites ≠ [])
    (h1 : orc (s.k + 1) = .err m) :
    (channelStep gid orc s ch).log = s.log ++ [.channelCreateFailed ch.name m] := by
  have how : ch.overwrites.isEmpty = false := by
    cases h : ch.overwrites with
    | nil => exact absurd h hne
    | cons a l => rfl
  simp [channelStep, callApi, h0, how, h1]

/-- C2 amended: per-entity failures never abort the surrounding loop —
for every oracle, the restore issues exactly one deletion per live
channel and deletable role and exactly one creation per snapshot role,
category and channel; a failed role/category/channel creation, and a
failed overwrite application after a successful creation, is logged
with the entity's name; teardown deletion failures are silently
swallowed (the teardown appends nothing to the log, for any oracle);
and the whole operation aborts if and only if no snapshot is on file. -/
theorem C2_amended_error_isolation (g : Guild) (b : Backup) (st : BackupStore) (orc : Oracle) :
    ((restoreGuildFromBackup g b orc).trace.countP isDeleteChannelB = g.channels.length ∧
     (restoreGuildFromBackup g b orc).trace.countP isDeleteRoleB =
       (g.roles.filter (fun r => !r.managed && r.id != g.id)).length ∧
     (restoreGuildFromBackup g b orc).trace.countP isCreateRoleB =
       (b.roles.filter (fun r => r.id != g.id)).length ∧
     (restoreGuildFromBackup g b orc).trace.countP isCreateCategoryB =
       (b.channels.filter (fun c => c.type == GuildCategoryT)).length ∧
     (restoreGuildFromBackup g b orc).trace.countP isCreateChannelB =
       (b.channels.filter (fun c => c.type != GuildCategoryT)).length) ∧
    (∀ (s : RestoreSt) (r : BRole) (m : String), orc s.k = .err m →
      (roleStep orc s r).log = s.log ++ [.roleCreateFailed r.name m]) ∧
    (∀ (s : RestoreSt) (cat : BChannel) (m : String), orc s.k = .err m →
      (categoryStep g.id orc s cat).log = s.log ++ [.categoryCreateFailed cat.name m]) ∧
    (∀ (s : RestoreSt) (ch : BChannel) (m : String), orc s.k = .err m →
      (channelStep g.id orc s ch).log = s.log ++ [.channelCreateFailed ch.name m]) ∧
    (∀ (s : RestoreSt) (cat : BChannel) (nid m : String), orc s.k = .ok nid →
      cat.overwrites ≠ [] → orc (s.k + 1) = .err m →
      (categoryStep g.id orc s cat).log = s.log ++ [.categoryCreateFailed cat.name m]) ∧
    (∀ (s : RestoreSt) (ch : BChannel) (nid m : String), orc s.k = .ok nid →
      ch.overwrites ≠ [] → orc (s.k + 1) = .err m →
      (channelStep g.id orc s ch).log = s.log ++ [.channelCreateFailed ch.name m]) ∧
    (teardownRoles g orc (teardownChannels g orc (initialRestoreSt g))).log = [] ∧
    ((handleRestoreCommand st g orc).isAborted = true ↔ loadGuildBackup st g.id = none) := by
  refine ⟨⟨restore_count_deleteChannel g b orc, restore_count_deleteRole g b orc,
    restore_count_createRole g b orc, restore_count_createCategory g b orc,
    restore_count_createChannel g b orc⟩,
    fun s r m h => roleStep_log_err orc s r m h,
    fun s cat m h => categoryStep_log_err g.id orc s cat m h,
    fun s ch m h => channelStep_log_err g.id orc s ch m h,
    fun s cat nid m h0 hne h1 => categoryStep_log_owfail g.id orc s cat nid m h0 hne h1,
    fun s ch nid m h0 hne h1 => channelStep_log_owfail g.id orc s ch nid m h0 hne h1,
    ?_, ?_⟩
  · rw [teardownRoles_log, teardownChannels_log]; rfl
  · unfold handleRestoreCommand
    cases h : loadGuildBackup st g.id <;> simp [h, RestoreCmdResult.isAborted]

/-- C2 amended witness: each logged-failure branch at a concrete
input, and the abort equivalence at an empty store. -/
theorem C2_amended_error_isolation_witness :
    (roleStep orcE emptyRestoreSt r2w).log =
      emptyRestoreSt.log ++ [.roleCreateFailed r2w.name "boom"] ∧
    (categoryStep g2w.id orcE emptyRestoreSt cat2w).log =
      emptyRestoreSt.log ++ [.categoryCreateFailed cat2w.name "boom"] ∧
    (channelStep g2w.id orcE emptyRestoreSt ch2w).log =
      emptyRestoreSt.log ++ [.channelCreateFailed ch2w.name "boom"] ∧
    (categoryStep g2w.id orc01 emptyRestoreSt cat2w).log =
      emptyRestoreSt.log ++ [.categoryCreateFailed cat2w.name "boom"] ∧
    (channelStep g2w.id orc01 emptyRestoreSt ch2w).log =
      emptyRestoreSt.log ++ [.channelCreateFailed ch2w.name "boom"] ∧
    ((handleRestoreCommand [] g2w orcE).isAborted = true ↔
      loadGuildBackup [] g2w.id = none) := by
  have hE := C2_amended_error_isolation g2w b2w [] orcE
  have h01 := C2_amended_error_isolation g2w b2w [] orc01
  exact ⟨hE.2.1 emptyRestoreSt r2w "boom" rfl,
    hE.2.2.1 emptyRestoreSt cat2w "boom" rfl,
    hE.2.2.2.1 emptyRestoreSt ch2w "boom" rfl,
    h01.2.2.2.2.1 emptyRestoreSt cat2w "n1" "boom" rfl (by decide) rfl,
    h01.2.2.2.2.2.1 emptyRestoreSt ch2w "n1" "boom" rfl (by decide) rfl,
    hE.2.2.2.2.2.2.2⟩

/-- C2 counterexample: with every call failing, the teardown deletion
of channel "general" fails (`orcE 0 = err`), yet the restore log is
empty — the failure is swallowed by the empty `catch {}`, not "logged
with the entity's name" as the claim states.  (The surviving channel
is the cache's only text-capable entry, so the completion notice is
deterministically sent to it.) -/
theorem C2_counterexample :
    (restoreGuildFromBackup g2c b2c orcE).log = [] ∧
    (restoreGuildFromBackup g2c b2c orcE).trace =
      [.deleteChannel "c1", .sendMessage "c1" "✅ バックアップを復元完了しました",
       .followUp "✅ 完全復元が完了しました"] ∧
    orcE 0 = .err "boom" := by decide

/-- C1 witness at a concrete store, id and snapshot. -/
theorem C1_save_load_round_trip_witness :
    loadGuildBackup (saveGuildBackup [] "g2w" b2w) "g2w" = some b2w :=
  C1_save_load_round_trip [] "g2w" b2w

/-- C5 witness at a concrete guild, backup and oracle. -/
theorem C5_categories_before_channels_witness :
    (∃ A B, (restoreGuildFromBackup g2c b2c orcE).trace = A ++ B ∧
      (∀ c ∈ A, isCreateChannelB c = false) ∧
      (∀ c ∈ B, isCreateCategoryB c = false)) ∧
    List.Sorted (fun a b => a ≤ b)
      ((restoreGuildFromBackup g2c b2c orcE).trace.filterMap catPosOf) ∧
    List.Sorted (fun a b => a ≤ b)
      ((restoreGuildFromBackup g2c b2c orcE).trace.filterMap chPosOf) :=
  C5_categories_before_channels g2c b2c orcE

/-- C8 witness at a concrete guild. -/
theorem C8_collector_shape_witness :
    List.Sorted (fun a b => a.position ≤ b.position) (collectGuildBackup g2c "t").roles ∧
    List.Sorted (fun a b => a.position ≤ b.position) (collectGuildBackup g2c "t").channels ∧
    (collectGuildBackup g2c "t").roles.Perm
      ((g2c.roles.filter (fun r => !r.managed)).map roleToBackup) ∧
    (collectGuildBackup g2c "t").channels.Perm (g2c.channels.map channelToBackup) ∧
    (∀ br ∈ (collectGuildBackup g2c "t").roles, ∃ r ∈ g2c.roles, r.managed = false ∧
      br = roleToBackup r ∧ br.permissions = decToString r.permissionsBits ∧
      decFromString br.permissions = r.permissionsBits) ∧
    (∀ bc ∈ (collectGuildBackup g2c "t").channels, ∀ ow ∈ bc.overwrites, ow.type = 0) ∧
    (∀ bc ∈ (collectGuildBackup g2c "t").channels, ∃ ch ∈ g2c.channels,
      bc = channelToBackup ch ∧
      bc.overwrites = (ch.overwrites.filter (fun ow => ow.type == 0)).map owToBackup ∧
      ∀ ow ∈ ch.overwrites,
        decFromString (owToBackup ow).allow = ow.allowBits ∧
        decFromString (owToBackup ow).deny = ow.denyBits) :=
  C8_collector_shape g2c "t"
